import Mathlib

/-!
Gobonoid/form: the accounts API client.

A shallow embedding of `account.go`, `error.go` and `http.go`, of the constructor of
`client/default.go` with the options of `client/options.go`, and of the parts of the Go
libraries these files call (`fmt`, `github.com/pkg/errors`, `github.com/google/uuid`,
`net/url`, `net/http`, `io`, `encoding/json`), followed by the properties proved about them.

Conventions of the embedding:

* a Go `string` is a Lean `String` (so it is valid UTF-8), a Go `int` or `int64` is an `Int`;
* a Go pointer `*T` is an `Option T`, a Go slice `[]T` is an `Option (List T)` where `none`
  is the nil slice and `some []` the empty, non-nil one;
* a Go `error` is an `Option Error`, `none` being the nil error;
* a call of a method of the injected `HTTPClient` is recorded in the list of calls that every
  operation returns next to its result;
* a run-time panic is an outcome of its own.
-/

namespace form

/-! ## fmt -/

/-- The text `fmt.Sprintf("%d", n)` produces: the decimal digits of `n`, after a minus sign
when `n` is negative. -/
def formatInt : Int → String
  | Int.ofNat m => String.mk (Nat.toDigits 10 m)
  | Int.negSucc m => String.mk ('-' :: Nat.toDigits 10 (m + 1))

/-! ## error.go, and the errors of the libraries -/

/-- Failures of `json.Decoder.Decode`, by kind. -/
inductive JSONError where
  /-- `io.EOF`: the stream ended before any value started. -/
  | EOF
  /-- `io.ErrUnexpectedEOF`: the stream ended inside a value. -/
  | UnexpectedEOF
  /-- `*json.SyntaxError`. -/
  | Syntax
  /-- `*json.UnmarshalTypeError`, or the error of an `UnmarshalJSON` method. -/
  | Unmarshal
  deriving DecidableEq, Repr

/-- Go error values. The first five constructors are the types of `error.go`; `Wrap` is the
value `errors.Wrap(cause, message)` of `github.com/pkg/errors`; `JSON` is a failure of
`encoding/json`; `Other` is any other error, identified by its text. -/
inductive Error where
  | ErrUnexpectedStatusCode (StatusCode : Int)
  | ErrNotFound
  | ErrValidationError (Reason : String)
  | ErrConflict (Reason : String)
  | ErrBadRequest (Reason : String)
  | Wrap (cause : Error) (message : String)
  | JSON (kind : JSONError)
  | Other (text : String)
  deriving DecidableEq, Repr

namespace Error

/-- The `Error()` method. -/
def Error : form.Error → String
  | ErrUnexpectedStatusCode c => "unexepcterd error code " ++ formatInt c
  | ErrNotFound => "not found"
  | ErrValidationError r => "request body isn't valid: " ++ r
  | ErrConflict r => r
  | ErrBadRequest r => "bad request: " ++ r
  | Wrap cause message => message ++ ": " ++ Error cause
  | JSON .EOF => "EOF"
  | JSON .UnexpectedEOF => "unexpected EOF"
  | JSON .Syntax => "invalid character"
  | JSON .Unmarshal => "json: cannot unmarshal"
  | Other t => t

/-- The dynamic type of the error is one of the five types declared in `error.go`. -/
def isTyped : form.Error → Bool
  | ErrUnexpectedStatusCode _ => true
  | ErrNotFound => true
  | ErrValidationError _ => true
  | ErrConflict _ => true
  | ErrBadRequest _ => true
  | _ => false

/-- The error that `errors.Wrap` was given, which the methods `Cause` and `Unwrap` of its
result lead to; `none` for an error that wraps nothing. -/
def cause? : form.Error → Option form.Error
  | Wrap c _ => some c
  | _ => none

end Error

/-! ## http.go -/

/-- A `context.Context`; the client only passes it on. -/
structure Context where
  id : Nat
  deriving DecidableEq, Repr

/-- An `io.ReadCloser` response body: reading it yields `data` and then ends, with the error
`err` when there is one and with `io.EOF` otherwise. -/
structure Body where
  data : String
  err : Option Error := none
  deriving DecidableEq, Repr

/-- The fields of `http.Response` the client reads. The field `Body` is an interface value:
`none` is the nil body, which the clients of `net/http` never return but an implementation
of `HTTPClient` can. -/
structure Response where
  StatusCode : Int
  Body : Option Body
  deriving DecidableEq, Repr

/-- The type `url.Values`, a map from a key to its list of values. -/
abbrev Values := List (String × List String)

/-- The method `url.Values.Set`: the key gets the single value, whatever it had. -/
def Values.Set (q : Values) (key value : String) : Values :=
  (key, [value]) :: q.filter (fun kv => kv.1 ≠ key)

/-- The Go pair `(*http.Response, error)` a method of `HTTPClient` returns. -/
structure Reply where
  resp : Option Response
  err : Option Error
  deriving DecidableEq, Repr

/-- The interface `HTTPClient`: any implementation, given by what each method returns.
An operation of the client calls it once at most, so an implementation with a state is
covered too: the functions are its answers to that first call. -/
structure HTTPClient where
  Get : Context → String → Reply
  Post : Context → String → String → Reply
  DeleteWithQueryParams : Context → String → Values → Reply

/-- One call of a method of `HTTPClient`, with its arguments (for `Post`, the content of the
reader passed as body). -/
inductive Call where
  | Get (ctx : Context) (path : String)
  | Post (ctx : Context) (path : String) (body : String)
  | DeleteWithQueryParams (ctx : Context) (path : String) (q : Values)
  deriving DecidableEq, Repr

/-- How a Go function ends: it returns, or it panics. -/
inductive Outcome (α : Type) where
  | returned (value : α)
  | panicked (message : String)
  deriving DecidableEq, Repr

/-- A finished call of an operation of the client: the calls it made to the `HTTPClient`, in
order, and how it ended. -/
structure Exec (α : Type) where
  calls : List Call
  outcome : Outcome α
  deriving DecidableEq, Repr

/-! ## github.com/google/uuid -/

namespace uuid

/-- The table `xvalues` restricted to what `xtob` asks of it: the byte is a hex digit. -/
def isHex (c : Char) : Bool :=
  ('0' ≤ c ∧ c ≤ '9') ∨ ('a' ≤ c ∧ c ≤ 'f') ∨ ('A' ≤ c ∧ c ≤ 'F')

/-- The second result of `xtob`: both bytes are hex digits. -/
def xtob (x1 x2 : Char) : Bool := isHex x1 && isHex x2

/-- The body of `Parse` once the text has 36 bytes or more: dashes at 8, 13, 18 and 23 and
hex pairs at the sixteen offsets. -/
def parseCanonical (s : List Char) : Bool :=
  (s.getD 8 ' ' == '-' && s.getD 13 ' ' == '-' && s.getD 18 ' ' == '-' && s.getD 23 ' ' == '-')
    && [0, 2, 4, 6, 9, 11, 14, 16, 19, 21, 24, 26, 28, 30, 32, 34].all
        (fun x => xtob (s.getD x ' ') (s.getD (x + 1) ' '))

/-- ASCII lower case, enough for `strings.EqualFold(s[:9], "urn:uuid:")`. -/
def lower (c : Char) : Char :=
  if 'A' ≤ c ∧ c ≤ 'Z' then Char.ofNat (c.toNat + 32) else c

/-- Whether `uuid.Parse(s)` returns a nil error. A text with a byte above 127 never parses
(every length the function accepts checks its bytes against ASCII), so such texts are
rejected first and the rest is indexed by character. -/
def Parse (s : String) : Bool :=
  let cs := s.data
  if cs.any (fun c => 128 ≤ c.toNat) then false
  else if cs.length = 36 then parseCanonical cs
  else if cs.length = 36 + 9 then
    (cs.take 9).map lower == "urn:uuid:".data && parseCanonical (cs.drop 9)
  else if cs.length = 36 + 2 then parseCanonical (cs.drop 1)
  else if cs.length = 32 then
    (List.range 16).all (fun i => xtob (cs.getD (i * 2) ' ') (cs.getD (i * 2 + 1) ' '))
  else false

end uuid

/-! ## encoding/json: the scanner -/

namespace json

/-- The double quote. -/
def quote : Char := Char.ofNat 34

/-- The backslash. -/
def backslash : Char := Char.ofNat 92

/-- A JSON value as the decoder sees it after scanning: a string or an object key is kept
as the text between its quotes, escapes intact, and a number as its literal. -/
inductive Value where
  | null
  | bool (b : Bool)
  | num (lit : List Char)
  | str (raw : List Char)
  | arr (items : List Value)
  | obj (members : List (List Char × Value))
  deriving Repr

/-- The result of scanning a prefix of the input: a value and the input left, a syntax error,
or the end of the input before the value is complete. -/
inductive Scan (α : Type) where
  | ok (value : α) (rest : List Char)
  | syntaxError
  | incomplete
  deriving DecidableEq, Repr

/-- Applies a function to the value scanned. -/
def Scan.map {α β : Type} (f : α → β) : Scan α → Scan β
  | .ok v rest => .ok (f v) rest
  | .syntaxError => .syntaxError
  | .incomplete => .incomplete

/-- The function `isSpace` of the scanner. -/
def isSpace (c : Char) : Bool :=
  c == ' ' || c == '\t' || c == '\r' || c == '\n'

/-- Drops the leading white space. -/
def skipSpace : List Char → List Char
  | [] => []
  | c :: cs => if isSpace c then skipSpace cs else c :: cs

/-- A hex digit, as the scanner and `getu4` accept it. -/
def isHex (c : Char) : Bool :=
  ('0' ≤ c ∧ c ≤ '9') ∨ ('a' ≤ c ∧ c ≤ 'f') ∨ ('A' ≤ c ∧ c ≤ 'F')

/-- The states of the scanner inside a string: `stateInString`, `stateInStringEsc`, and
`stateInStringEscU` to `stateInStringEscU123` (by the number of hex digits still due). -/
inductive StrState where
  | inString
  | esc
  | escU (due : Nat)
  deriving DecidableEq, Repr

/-- The characters that may follow a backslash, `u` apart. -/
def isShortEscape (c : Char) : Bool :=
  c == 'b' || c == 'f' || c == 'n' || c == 'r' || c == 't' || c == backslash || c == '/'
    || c == quote

/-- Scans a string from after its opening quote to its closing quote and returns the text
in between. -/
def scanString : StrState → List Char → Scan (List Char)
  | _, [] => .incomplete
  | .inString, c :: cs =>
    if c = quote then .ok [] cs
    else if c = backslash then (scanString .esc cs).map (c :: ·)
    else if c.toNat < 32 then .syntaxError
    else (scanString .inString cs).map (c :: ·)
  | .esc, c :: cs =>
    if c = 'u' then (scanString (.escU 4) cs).map (c :: ·)
    else if isShortEscape c then (scanString .inString cs).map (c :: ·)
    else .syntaxError
  | .escU due, c :: cs =>
    if isHex c then
      (scanString (if due ≤ 1 then .inString else .escU (due - 1)) cs).map (c :: ·)
    else .syntaxError

/-- The states of the scanner inside a number: after the minus sign (`stateNeg`), after a
leading zero (`state0`), in the integer digits (`state1`), after the point (`stateDot`), in
the fraction (`stateDot0`), after the `e` (`stateE`), after its sign (`stateESign`), in the
exponent (`stateE0`). -/
inductive NumState where
  | neg | zero | int | dot | frac | e | esign | exp
  deriving DecidableEq, Repr

/-- A decimal digit. -/
def isDigit (c : Char) : Bool := '0' ≤ c ∧ c ≤ '9'

/-- The number may end in this state. -/
def NumState.accepting : NumState → Bool
  | .zero | .int | .frac | .exp => true
  | _ => false

/-- The next state of the number scanner, when the character continues the number. -/
def NumState.step (st : NumState) (c : Char) : Option NumState :=
  match st with
  | .neg => if c = '0' then some .zero else if isDigit c then some .int else none
  | .zero => if c = '.' then some .dot else if c = 'e' ∨ c = 'E' then some .e else none
  | .int =>
    if isDigit c then some .int else if c = '.' then some .dot
    else if c = 'e' ∨ c = 'E' then some .e else none
  | .dot => if isDigit c then some .frac else none
  | .frac => if isDigit c then some .frac else if c = 'e' ∨ c = 'E' then some .e else none
  | .e => if c = '+' ∨ c = '-' then some .esign else if isDigit c then some .exp else none
  | .esign => if isDigit c then some .exp else none
  | .exp => if isDigit c then some .exp else none

/-- Scans the rest of a number literal. -/
def scanNumber : NumState → List Char → Scan (List Char)
  | st, [] => if st.accepting then .ok [] [] else .incomplete
  | st, c :: cs =>
    match st.step c with
    | some st2 => (scanNumber st2 cs).map (c :: ·)
    | none => if st.accepting then .ok [] (c :: cs) else .syntaxError

/-- Scans the rest of one of the literals `true`, `false` and `null`. -/
def scanLiteral : List Char → List Char → Scan Unit
  | [], rest => .ok () rest
  | _ :: _, [] => .incomplete
  | e :: es, c :: cs => if c = e then scanLiteral es cs else .syntaxError

/-- The constant `maxNestingDepth` of the scanner. -/
def maxNestingDepth : Nat := 10000

mutual
/-- Scans one value that starts at the head of the input. The first argument bounds the
number of steps, the second is the number of arrays and objects open around the value. -/
def scanValue : Nat → Nat → List Char → Scan Value
  | 0, _, _ => .syntaxError
  | _ + 1, _, [] => .incomplete
  | n + 1, d, c :: cs =>
    if c = '{' then
      if maxNestingDepth ≤ d then .syntaxError
      else match skipSpace cs with
        | [] => .incomplete
        | c2 :: cs2 =>
          if c2 = '}' then .ok (.obj []) cs2 else (scanMembers n (d + 1) (c2 :: cs2)).map .obj
    else if c = '[' then
      if maxNestingDepth ≤ d then .syntaxError
      else match skipSpace cs with
        | [] => .incomplete
        | c2 :: cs2 =>
          if c2 = ']' then .ok (.arr []) cs2 else (scanElements n (d + 1) (c2 :: cs2)).map .arr
    else if c = quote then (scanString .inString cs).map .str
    else if c = '-' then (scanNumber .neg cs).map (fun l => .num (c :: l))
    else if c = '0' then (scanNumber .zero cs).map (fun l => .num (c :: l))
    else if isDigit c then (scanNumber .int cs).map (fun l => .num (c :: l))
    else if c = 't' then (scanLiteral ['r', 'u', 'e'] cs).map (fun _ => .bool true)
    else if c = 'f' then (scanLiteral ['a', 'l', 's', 'e'] cs).map (fun _ => .bool false)
    else if c = 'n' then (scanLiteral ['u', 'l', 'l'] cs).map (fun _ => .null)
    else .syntaxError
/-- Scans the elements of an array, from the start of an element to the closing bracket. -/
def scanElements : Nat → Nat → List Char → Scan (List Value)
  | 0, _, _ => .syntaxError
  | n + 1, d, cs =>
    match scanValue n d cs with
    | .syntaxError => .syntaxError
    | .incomplete => .incomplete
    | .ok v rest =>
      match skipSpace rest with
      | [] => .incomplete
      | c :: cs2 =>
        if c = ',' then (scanElements n d (skipSpace cs2)).map (v :: ·)
        else if c = ']' then .ok [v] cs2
        else .syntaxError
/-- Scans the members of an object, from the start of a key to the closing brace. -/
def scanMembers : Nat → Nat → List Char → Scan (List (List Char × Value))
  | 0, _, _ => .syntaxError
  | _ + 1, _, [] => .incomplete
  | n + 1, d, c :: cs =>
    if c = quote then
      match scanString .inString cs with
      | .syntaxError => .syntaxError
      | .incomplete => .incomplete
      | .ok key rest =>
        match skipSpace rest with
        | [] => .incomplete
        | c2 :: cs2 =>
          if c2 = ':' then
            match scanValue n d (skipSpace cs2) with
            | .syntaxError => .syntaxError
            | .incomplete => .incomplete
            | .ok v rest3 =>
              match skipSpace rest3 with
              | [] => .incomplete
              | c3 :: cs3 =>
                if c3 = ',' then (scanMembers n d (skipSpace cs3)).map ((key, v) :: ·)
                else if c3 = '}' then .ok [(key, v)] cs3
                else .syntaxError
          else .syntaxError
    else .syntaxError
end

/-- Scans the first value of a stream, as `Decoder.readValue` does: leading white space is
skipped and what follows the value is left unread. The bound given here is never reached
(`scan_bound_enough`). -/
def scan (data : List Char) : Scan Value :=
  scanValue (2 * data.length + 2) 0 (skipSpace data)

/-! ## encoding/json: strings -/

/-- The value of a hex digit, as `getu4` computes it. -/
def hexValue (c : Char) : Option Nat :=
  if '0' ≤ c ∧ c ≤ '9' then some (c.toNat - 48)
  else if 'a' ≤ c ∧ c ≤ 'f' then some (c.toNat - 97 + 10)
  else if 'A' ≤ c ∧ c ≤ 'F' then some (c.toNat - 65 + 10)
  else none

/-- The function `getu4`: the number a leading `\uXXXX` denotes; `none` stands for -1. -/
def getu4 : List Char → Option Nat
  | b :: u :: h1 :: h2 :: h3 :: h4 :: _ =>
    if b = backslash ∧ u = 'u' then
      match hexValue h1, hexValue h2, hexValue h3, hexValue h4 with
      | some a1, some a2, some a3, some a4 => some (((a1 * 16 + a2) * 16 + a3) * 16 + a4)
      | _, _, _, _ => none
    else none
  | _ => none

/-- The character a one-letter escape denotes in `unquoteBytes`. -/
def shortEscape (c : Char) : Option Char :=
  if c = quote ∨ c = backslash ∨ c = '/' ∨ c = Char.ofNat 39 then some c
  else if c = 'b' then some (Char.ofNat 8)
  else if c = 'f' then some (Char.ofNat 12)
  else if c = 'n' then some '\n'
  else if c = 'r' then some '\r'
  else if c = 't' then some '\t'
  else none

/-- The character `unicode.ReplacementChar`. -/
def replacementChar : Char := Char.ofNat 0xFFFD

/-- The loop of `unquoteBytes` over the text between the quotes; the first argument bounds
the number of rounds. -/
def unquoteAux : Nat → List Char → Option (List Char)
  | _, [] => some []
  | 0, _ :: _ => none
  | n + 1, c :: cs =>
    if c = backslash then
      match cs with
      | [] => none
      | e :: cs1 =>
        if e = 'u' then
          match getu4 (c :: cs) with
          | none => none
          | some rr =>
            let rest := cs1.drop 4
            if 0xD800 ≤ rr ∧ rr < 0xE000 then
              match getu4 rest with
              | some rr1 =>
                if rr < 0xDC00 ∧ 0xDC00 ≤ rr1 ∧ rr1 < 0xE000 then
                  (unquoteAux n (rest.drop 6)).map
                    (Char.ofNat ((rr - 0xD800) * 1024 + (rr1 - 0xDC00) + 0x10000) :: ·)
                else (unquoteAux n rest).map (replacementChar :: ·)
              | none => (unquoteAux n rest).map (replacementChar :: ·)
            else (unquoteAux n rest).map (Char.ofNat rr :: ·)
        else
          match shortEscape e with
          | some ch => (unquoteAux n cs1).map (ch :: ·)
          | none => none
    else if c = quote ∨ c.toNat < 32 then none
    else (unquoteAux n cs).map (c :: ·)

/-- The function `unquote`, on the text between the quotes: the string the text denotes.
Every round reads a character, so the bound is never reached (`unquoteAux_bound`). -/
def unquote (raw : List Char) : Option String :=
  (unquoteAux raw.length raw).map String.mk

/-- The table `hex` of the encoder. -/
def hexDigit (n : Nat) : Char := "0123456789abcdef".data.getD n '0'

/-- What `appendString` writes for one character of a valid UTF-8 string, with HTML
escaping on (the default of an `Encoder`). The two-letter forms for backspace and form feed
are those of Go 1.22 and later; earlier releases write the six-letter form for them. -/
def escapeChar (c : Char) : List Char :=
  if c = backslash ∨ c = quote then [backslash, c]
  else if c = Char.ofNat 8 then [backslash, 'b']
  else if c = Char.ofNat 12 then [backslash, 'f']
  else if c = '\n' then [backslash, 'n']
  else if c = '\r' then [backslash, 'r']
  else if c = '\t' then [backslash, 't']
  else if c.toNat < 32 ∨ c = '<' ∨ c = '>' ∨ c = '&' then
    [backslash, 'u', '0', '0', hexDigit (c.toNat / 16), hexDigit (c.toNat % 16)]
  else if c = Char.ofNat 0x2028 then [backslash, 'u', '2', '0', '2', '8']
  else if c = Char.ofNat 0x2029 then [backslash, 'u', '2', '0', '2', '9']
  else [c]

/-- The loop of `appendString` over the characters of the string. -/
def escapeChars : List Char → List Char
  | [] => []
  | c :: cs => escapeChar c ++ escapeChars cs

/-- The text `appendString` writes between the quotes. -/
def escape (s : String) : List Char := escapeChars s.data

/-! ## encoding/json: writing values -/

mutual
/-- The compact text of a value, as the encoder writes it. -/
def print : Value → List Char
  | .str raw => quote :: raw ++ [quote]
  | .num lit => lit
  | .bool b => if b then "true".data else "false".data
  | .null => "null".data
  | .arr [] => ['[', ']']
  | .arr (x :: xs) => '[' :: print x ++ printElements xs
  | .obj [] => ['{', '}']
  | .obj ((k, v) :: ms) => '{' :: quote :: k ++ quote :: ':' :: print v ++ printMembers ms
/-- The elements of an array after the first, and the closing bracket. -/
def printElements : List Value → List Char
  | [] => [']']
  | x :: xs => ',' :: print x ++ printElements xs
/-- The members of an object after the first, and the closing brace. -/
def printMembers : List (List Char × Value) → List Char
  | [] => ['}']
  | (k, v) :: ms => ',' :: quote :: k ++ quote :: ':' :: print v ++ printMembers ms
end

mutual
/-- A value the encoder can have written, of at most `k` nested arrays and objects: it has
no number, and the scanner reads the text of every string and key up to its closing quote. -/
def Plain (k : Nat) : Value → Prop
  | .null => True
  | .bool _ => True
  | .num _ => False
  | .str raw => ∀ rest, scanString .inString (raw ++ quote :: rest) = .ok raw rest
  | .arr xs => 0 < k ∧ PlainElements (k - 1) xs
  | .obj ms => 0 < k ∧ PlainMembers (k - 1) ms
/-- The elements of an array are plain. -/
def PlainElements (k : Nat) : List Value → Prop
  | [] => True
  | x :: xs => Plain k x ∧ PlainElements k xs
/-- The keys and values of the members of an object are plain. -/
def PlainMembers (k : Nat) : List (List Char × Value) → Prop
  | [] => True
  | (key, v) :: ms =>
    (∀ rest, scanString .inString (key ++ quote :: rest) = .ok key rest)
      ∧ Plain k v ∧ PlainMembers k ms
end

/-! ## encoding/json: storing values -/

/-- A string, as `Marshal` writes it. -/
def ofString (s : String) : Value := .str (escape s)

/-- Storing a value in a Go `string`: null leaves it as it is, a string sets it, anything
else is an `UnmarshalTypeError` (`none`). -/
def decodeString (v : Value) (cur : String) : Option String :=
  match v with
  | .null => some cur
  | .str raw => unquote raw
  | _ => none

/-- Storing a value in a `*string`: null makes it nil. -/
def decodeStringPtr (v : Value) (cur : Option String) : Option (Option String) :=
  match v with
  | .null => some none
  | _ => (decodeString v (cur.getD "")).map some

/-- Storing a value in a `*bool`. -/
def decodeBoolPtr (v : Value) : Option (Option Bool) :=
  match v with
  | .null => some none
  | .bool b => some (some b)
  | _ => none

/-- The digits of a decimal numeral, most significant first, as a number. -/
def digitsValue (ds : List Char) : Nat :=
  ds.foldl (fun acc c => acc * 10 + (c.toNat - 48)) 0

/-- The call `strconv.ParseInt(lit, 10, 64)` on a literal the scanner accepted: the literal
has to be an integer in the range of `int64`. -/
def parseInt64 (lit : List Char) : Option Int :=
  let neg := lit.head? = some '-'
  let ds := if neg then lit.drop 1 else lit
  if ds ≠ [] ∧ ds.all isDigit then
    let n : Int := if neg then - (digitsValue ds : Int) else (digitsValue ds : Int)
    if -(2 ^ 63 : Int) ≤ n ∧ n < (2 ^ 63 : Int) then some n else none
  else none

/-- Storing a value in a `*int64`. -/
def decodeInt64Ptr (v : Value) : Option (Option Int) :=
  match v with
  | .null => some none
  | .num lit => (parseInt64 lit).map some
  | _ => none

/-- Storing the elements of an array in a `[]string`, each in a fresh element. -/
def decodeStringElements : List Value → Option (List String)
  | [] => some []
  | v :: vs =>
    match decodeString v "", decodeStringElements vs with
    | some s, some ss => some (s :: ss)
    | _, _ => none

/-- Storing a value in a `[]string`: null makes it nil, an empty array makes it the empty,
non-nil slice. -/
def decodeStringSlice (v : Value) : Option (Option (List String)) :=
  match v with
  | .null => some none
  | .arr items => (decodeStringElements items).map some
  | _ => none

/-- The smallest character of the case-folding class of a character, for the classes that
hold an ASCII character: the lower case letters fold to the upper case ones, and so do the
long s (U+017F) and the Kelvin sign (U+212A). The other characters are left alone: none of
them folds to a character of a field name. -/
def foldRune (c : Char) : Char :=
  if 'a' ≤ c ∧ c ≤ 'z' then Char.ofNat (c.toNat - 32)
  else if c = Char.ofNat 0x17F then 'S'
  else if c = Char.ofNat 0x212A then 'K'
  else c

/-- The function `foldName`. -/
def foldName (s : List Char) : List Char := s.map foldRune

/-- The field a key selects: the one of that exact name, or else the one whose name is
equal to the key under case folding. -/
def findField {F : Type} (fields : List (String × F)) (key : String) : Option F :=
  match fields.find? (fun f => f.1 = key) with
  | some f => some f.2
  | none => (fields.find? (fun f => foldName f.1.data = foldName key.data)).map (·.2)

/-- Storing the members of an object in a struct, in order: a key that selects no field is
skipped, the value of the others is stored in the field by `store`. -/
def decodeMembers {S F : Type} (fields : List (String × F)) (store : F → Value → S → Option S) :
    List (List Char × Value) → S → Option S
  | [], cur => some cur
  | (rawKey, v) :: ms, cur =>
    match unquote rawKey with
    | none => none
    | some key =>
      match findField fields key with
      | none => decodeMembers fields store ms cur
      | some f =>
        match store f v cur with
        | none => none
        | some cur2 => decodeMembers fields store ms cur2

/-- Storing a value in a struct: null leaves it as it is, an object stores its members,
anything else is an `UnmarshalTypeError`. -/
def decodeStruct {S F : Type} (fields : List (String × F)) (store : F → Value → S → Option S)
    (v : Value) (cur : S) : Option S :=
  match v with
  | .null => some cur
  | .obj ms => decodeMembers fields store ms cur
  | _ => none

end json

/-! ## time, net/http, and the library functions taken as parameters -/

/-- A `time.Time`, by its calendar fields and the offset of its zone in seconds. -/
structure Time where
  year : Nat
  month : Nat
  day : Nat
  hour : Nat
  minute : Nat
  second : Nat
  nanosecond : Nat
  offset : Int
  deriving DecidableEq, Repr

/-- The zero `time.Time`: January 1 of year 1, 00:00:00 UTC. -/
def Time.zero : Time := ⟨1, 1, 1, 0, 0, 0, 0, 0⟩

/-- The library functions whose result the client only tests or stores. The properties
below hold for every behaviour of theirs. -/
structure Lib where
  /-- Whether `uuid.Parse` returns a nil error on the text. -/
  uuidParse : String → Bool
  /-- What `Time.UnmarshalJSON` makes of the text between the quotes of a JSON string;
  `none` is a parse error. -/
  timeParse : List Char → Option Time

namespace time

/-- Two decimal digits at an offset of the text, as a number. -/
def num2 (s : List Char) (i : Nat) : Option Nat :=
  let a := s.getD i ' '
  let b := s.getD (i + 1) ' '
  if json.isDigit a ∧ json.isDigit b then some ((a.toNat - 48) * 10 + (b.toNat - 48)) else none

/-- The function `daysIn`. -/
def daysIn (month year : Nat) : Nat :=
  if month = 2 then (if year % 4 = 0 ∧ (year % 100 ≠ 0 ∨ year % 400 = 0) then 29 else 28)
  else if month = 4 ∨ month = 6 ∨ month = 9 ∨ month = 11 then 30 else 31

/-- The timestamps `YYYY-MM-DDTHH:MM:SSZ` that `parseRFC3339` accepts, the ones without a
fraction and in UTC. It stands for the time parser where a property is evaluated on a
concrete input. -/
def parseUTC (s : List Char) : Option Time :=
  if s.length = 20 ∧ s.getD 4 ' ' = '-' ∧ s.getD 7 ' ' = '-' ∧ s.getD 10 ' ' = 'T'
      ∧ s.getD 13 ' ' = ':' ∧ s.getD 16 ' ' = ':' ∧ s.getD 19 ' ' = 'Z' then
    match num2 s 0, num2 s 2, num2 s 5, num2 s 8, num2 s 11, num2 s 14, num2 s 17 with
    | some c, some y, some mo, some dd, some h, some mi, some sc =>
      let year := c * 100 + y
      if 1 ≤ mo ∧ mo ≤ 12 ∧ 1 ≤ dd ∧ dd ≤ daysIn mo year ∧ h ≤ 23 ∧ mi ≤ 59 ∧ sc ≤ 59 then
        some ⟨year, mo, dd, h, mi, sc, 0, 0⟩
      else none
    | _, _, _, _, _, _, _ => none
  else none

end time

/-- The libraries used where a property is evaluated on a concrete input: `uuid.Parse` as
modelled above, and timestamps in UTC without a fraction. -/
def golib : Lib :=
  { uuidParse := uuid.Parse
    timeParse := time.parseUTC }

namespace http

/-- The constant `http.StatusOK`. -/
def StatusOK : Int := 200

/-- The constant `http.StatusCreated`. -/
def StatusCreated : Int := 201

/-- The constant `http.StatusNoContent`. -/
def StatusNoContent : Int := 204

/-- The constant `http.StatusBadRequest`. -/
def StatusBadRequest : Int := 400

/-- The constant `http.StatusNotFound`. -/
def StatusNotFound : Int := 404

/-- The constant `http.StatusConflict`. -/
def StatusConflict : Int := 409

end http

/-- The function `io.ReadAll` on a response body: the data read, and the error that ended
the reading unless it was `io.EOF`. -/
def Body.ReadAll (b : Body) : String × Option Error :=
  (b.data, if b.err = some (.JSON .EOF) then none else b.err)

/-! ## account.go: the data model -/

/-- The constant `accountsPath`. -/
def accountsPath : String := "/v1/organisation/accounts"

/-- The struct `d`, the envelope; the type of what its `Data` holds is a parameter. -/
structure d (α : Type) where
  Data : α
  deriving DecidableEq, Repr

/-- The struct `AccountAttributes`. -/
structure AccountAttributes where
  AccountClassification : Option String := none
  AccountMatchingOptOut : Option Bool := none
  AccountNumber : String := ""
  AlternativeNames : Option (List String) := none
  BankID : String := ""
  BankIDCode : String := ""
  BaseCurrency : String := ""
  Bic : String := ""
  Country : Option String := none
  Iban : String := ""
  JointAccount : Option Bool := none
  Name : Option (List String) := none
  SecondaryIdentification : String := ""
  Status : Option String := none
  Switched : Option Bool := none
  deriving DecidableEq, Repr

/-- The struct `AccountData`; `Type_` is its field `Type`. -/
structure AccountData where
  Attributes : Option AccountAttributes := none
  ID : String := ""
  OrganisationID : String := ""
  Type_ : String := ""
  Version : Option Int := none
  CreatedOn : Time := Time.zero
  ModifiedOn : Time := Time.zero
  deriving DecidableEq, Repr

/-- The struct `CreateAccountReq`; `Type_` is its field `Type`. -/
structure CreateAccountReq where
  Attributes : Option AccountAttributes := none
  ID : String := ""
  OrganisationID : String := ""
  Type_ : String := ""
  deriving DecidableEq, Repr

/-- The struct `AccountAPIClient`. -/
structure AccountAPIClient where
  c : HTTPClient

/-- The constructor `NewAccountAPIClient`. -/
def NewAccountAPIClient (c : HTTPClient) : AccountAPIClient := { c := c }

/-! ## account.go: writing the request -/

/-- A struct member under `omitempty`: written unless the field is empty. -/
def omitempty (name : String) (v : Option json.Value) : List (List Char × json.Value) :=
  match v with
  | none => []
  | some x => [(name.data, x)]

/-- A `string` field under `omitempty`: empty when it is the empty string. -/
def fieldOfString (s : String) : Option json.Value :=
  if s = "" then none else some (json.ofString s)

/-- A `*string` field under `omitempty`: empty when it is nil. -/
def fieldOfStringPtr (p : Option String) : Option json.Value := p.map json.ofString

/-- A `*bool` field under `omitempty`: empty when it is nil. -/
def fieldOfBoolPtr (p : Option Bool) : Option json.Value := p.map json.Value.bool

/-- A `[]string` field under `omitempty`: empty when it has no element. -/
def fieldOfStringSlice (p : Option (List String)) : Option json.Value :=
  match p with
  | none => none
  | some [] => none
  | some (x :: xs) => some (.arr ((x :: xs).map json.ofString))

/-- The JSON object of an `AccountAttributes`, members in the order of the fields. -/
def AccountAttributes.toJSON (a : AccountAttributes) : json.Value :=
  .obj (omitempty "account_classification" (fieldOfStringPtr a.AccountClassification)
    ++ omitempty "account_matching_opt_out" (fieldOfBoolPtr a.AccountMatchingOptOut)
    ++ omitempty "account_number" (fieldOfString a.AccountNumber)
    ++ omitempty "alternative_names" (fieldOfStringSlice a.AlternativeNames)
    ++ omitempty "bank_id" (fieldOfString a.BankID)
    ++ omitempty "bank_id_code" (fieldOfString a.BankIDCode)
    ++ omitempty "base_currency" (fieldOfString a.BaseCurrency)
    ++ omitempty "bic" (fieldOfString a.Bic)
    ++ omitempty "country" (fieldOfStringPtr a.Country)
    ++ omitempty "iban" (fieldOfString a.Iban)
    ++ omitempty "joint_account" (fieldOfBoolPtr a.JointAccount)
    ++ omitempty "name" (fieldOfStringSlice a.Name)
    ++ omitempty "secondary_identification" (fieldOfString a.SecondaryIdentification)
    ++ omitempty "status" (fieldOfStringPtr a.Status)
    ++ omitempty "switched" (fieldOfBoolPtr a.Switched))

/-- The JSON object of a `CreateAccountReq`. -/
def CreateAccountReq.toJSON (r : CreateAccountReq) : json.Value :=
  .obj (omitempty "attributes" (r.Attributes.map AccountAttributes.toJSON)
    ++ omitempty "id" (fieldOfString r.ID)
    ++ omitempty "organisation_id" (fieldOfString r.OrganisationID)
    ++ omitempty "type" (fieldOfString r.Type_))

/-- The call `json.NewEncoder(b).Encode(d{Data: req})`: what it writes to the buffer, the
value and a newline. No value of this type makes the encoder fail. -/
def Encode (v : d CreateAccountReq) : Except Error String :=
  .ok (String.mk (json.print (.obj [("data".data, v.Data.toJSON)]) ++ ['\n']))

/-! ## account.go: reading the response -/

/-- The fields of `AccountAttributes`. -/
inductive AccountAttributesField where
  | AccountClassification | AccountMatchingOptOut | AccountNumber | AlternativeNames | BankID
  | BankIDCode | BaseCurrency | Bic | Country | Iban | JointAccount | Name
  | SecondaryIdentification | Status | Switched
  deriving DecidableEq, Repr

/-- The JSON names of the fields of `AccountAttributes`, from the struct tags. -/
def AccountAttributes.fields : List (String × AccountAttributesField) :=
  [("account_classification", .AccountClassification),
   ("account_matching_opt_out", .AccountMatchingOptOut),
   ("account_number", .AccountNumber),
   ("alternative_names", .AlternativeNames),
   ("bank_id", .BankID),
   ("bank_id_code", .BankIDCode),
   ("base_currency", .BaseCurrency),
   ("bic", .Bic),
   ("country", .Country),
   ("iban", .Iban),
   ("joint_account", .JointAccount),
   ("name", .Name),
   ("secondary_identification", .SecondaryIdentification),
   ("status", .Status),
   ("switched", .Switched)]

/-- Storing a value in a field of an `AccountAttributes`. -/
def AccountAttributes.store (f : AccountAttributesField) (v : json.Value)
    (cur : AccountAttributes) : Option AccountAttributes :=
  match f with
  | .AccountClassification =>
    (json.decodeStringPtr v cur.AccountClassification).map
      (fun x => { cur with AccountClassification := x })
  | .AccountMatchingOptOut =>
    (json.decodeBoolPtr v).map (fun x => { cur with AccountMatchingOptOut := x })
  | .AccountNumber =>
    (json.decodeString v cur.AccountNumber).map (fun x => { cur with AccountNumber := x })
  | .AlternativeNames =>
    (json.decodeStringSlice v).map (fun x => { cur with AlternativeNames := x })
  | .BankID => (json.decodeString v cur.BankID).map (fun x => { cur with BankID := x })
  | .BankIDCode =>
    (json.decodeString v cur.BankIDCode).map (fun x => { cur with BankIDCode := x })
  | .BaseCurrency =>
    (json.decodeString v cur.BaseCurrency).map (fun x => { cur with BaseCurrency := x })
  | .Bic => (json.decodeString v cur.Bic).map (fun x => { cur with Bic := x })
  | .Country => (json.decodeStringPtr v cur.Country).map (fun x => { cur with Country := x })
  | .Iban => (json.decodeString v cur.Iban).map (fun x => { cur with Iban := x })
  | .JointAccount => (json.decodeBoolPtr v).map (fun x => { cur with JointAccount := x })
  | .Name => (json.decodeStringSlice v).map (fun x => { cur with Name := x })
  | .SecondaryIdentification =>
    (json.decodeString v cur.SecondaryIdentification).map
      (fun x => { cur with SecondaryIdentification := x })
  | .Status => (json.decodeStringPtr v cur.Status).map (fun x => { cur with Status := x })
  | .Switched => (json.decodeBoolPtr v).map (fun x => { cur with Switched := x })

/-- Storing a value in a `*AccountAttributes`: null makes it nil, an object is stored in
the struct pointed to, which is allocated when the pointer is nil. -/
def decodeAttributesPtr (v : json.Value) (cur : Option AccountAttributes) :
    Option (Option AccountAttributes) :=
  match v with
  | .null => some none
  | _ => (json.decodeStruct AccountAttributes.fields AccountAttributes.store v
      (cur.getD {})).map some

/-- Storing a value in a `time.Time`, through its method `UnmarshalJSON`: null leaves it as
it is, the text of a string is parsed, anything else is an error. -/
def decodeTime (lib : Lib) (v : json.Value) (cur : Time) : Option Time :=
  match v with
  | .null => some cur
  | .str raw => lib.timeParse raw
  | _ => none

/-- The fields of `AccountData`. -/
inductive AccountDataField where
  | Attributes | ID | OrganisationID | Type_ | Version | CreatedOn | ModifiedOn
  deriving DecidableEq, Repr

/-- The JSON names of the fields of `AccountData`, from the struct tags. -/
def AccountData.fields : List (String × AccountDataField) :=
  [("attributes", .Attributes),
   ("id", .ID),
   ("organisation_id", .OrganisationID),
   ("type", .Type_),
   ("version", .Version),
   ("created_on", .CreatedOn),
   ("modified_on", .ModifiedOn)]

/-- Storing a value in a field of an `AccountData`. -/
def AccountData.store (lib : Lib) (f : AccountDataField) (v : json.Value) (cur : AccountData) :
    Option AccountData :=
  match f with
  | .Attributes => (decodeAttributesPtr v cur.Attributes).map (fun x => { cur with Attributes := x })
  | .ID => (json.decodeString v cur.ID).map (fun x => { cur with ID := x })
  | .OrganisationID =>
    (json.decodeString v cur.OrganisationID).map (fun x => { cur with OrganisationID := x })
  | .Type_ => (json.decodeString v cur.Type_).map (fun x => { cur with Type_ := x })
  | .Version => (json.decodeInt64Ptr v).map (fun x => { cur with Version := x })
  | .CreatedOn => (decodeTime lib v cur.CreatedOn).map (fun x => { cur with CreatedOn := x })
  | .ModifiedOn => (decodeTime lib v cur.ModifiedOn).map (fun x => { cur with ModifiedOn := x })

/-- What the field `Data interface{}` of a `d` that is decoded into can hold: nothing, a
pointer to an `AccountData`, or a value the decoder built for an empty interface (a map, a
slice, a string, a number or a boolean, given here by the JSON it was built from). -/
inductive Any where
  | nil
  | accountData (p : AccountData)
  | value (v : json.Value)
  deriving Repr

/-- Storing a value in the field `Data`. Null makes the interface nil, whatever it held (a
pointer held by an interface is only followed for null when it points to a pointer). Any
other value is stored in the `AccountData` pointed to when the interface holds the pointer,
and replaces the content of the interface by a value built from the JSON when it does
not. -/
def storeData (lib : Lib) (v : json.Value) (cur : Any) : Option Any :=
  match v, cur with
  | .null, _ => some .nil
  | _, .accountData p =>
    (json.decodeStruct AccountData.fields (AccountData.store lib) v p).map .accountData
  | _, _ => some (.value v)

/-- The JSON names of the fields of `d`. -/
def d.fields : List (String × Unit) := [("data", ())]

/-- Storing a value in the field of a `d`. -/
def d.store (lib : Lib) (_ : Unit) (v : json.Value) (cur : d Any) : Option (d Any) :=
  (storeData lib v cur.Data).map (fun x => { Data := x })

/-- The value is an array or an object. -/
def json.Value.isComposite : json.Value → Bool
  | .arr _ => true
  | .obj _ => true
  | _ => false

/-- The call `json.NewDecoder(body).Decode(&b)`: the new content of `b`, and the error.
The first value of the stream is scanned, then stored. A value that is not complete when
the data ends gives the error of the stream, or `io.EOF` when nothing but white space was
read and `io.ErrUnexpectedEOF` otherwise. A string, number or literal is only known to be
complete at the next byte or at the end of the stream. When storing fails, `b` is left as
it was here, while the Go decoder leaves what was stored up to the failure.

The model follows the decoder on every body in which no object names the same field twice.
On a field named twice the later member is stored over the earlier one, as in Go, but two
effects of Go are left out: an array stored in a slice that holds elements already reuses
them (a null element keeps the old string), and a number stored in the field `Data` once
a null has emptied it has to fit a `float64`. -/
def Decode (lib : Lib) (body : Body) (b : d Any) : d Any × Option Error :=
  match json.scan body.data.data with
  | .syntaxError => (b, some (.JSON .Syntax))
  | .incomplete =>
    match body.ReadAll.2 with
    | some e => (b, some e)
    | none =>
      (b, some (.JSON (if json.skipSpace body.data.data = [] then .EOF else .UnexpectedEOF)))
  | .ok v rest =>
    if rest = [] ∧ v.isComposite = false ∧ body.ReadAll.2.isSome then (b, body.ReadAll.2)
    else
      match json.decodeStruct d.fields (d.store lib) v b with
      | some b2 => (b2, none)
      | none => (b, some (.JSON .Unmarshal))

/-! ## account.go: the operations -/

/-- The function `validateCreateAccountReq`. -/
def validateCreateAccountReq (data : CreateAccountReq) : Option Error :=
  if data.Attributes = none then
    some (.ErrValidationError "Attributes property can't be empty")
  else none

/-- The function `validateAccountID`. -/
def validateAccountID (lib : Lib) (accountID : String) : Option Error :=
  if lib.uuidParse accountID then none
  else some (.ErrValidationError "accountID isn't uuid")

/-- The panic of `resp.Body` when the client returned a nil response with a nil error. -/
def nilResponse : String := "invalid memory address or nil pointer dereference"

/-- The panic of `defer resp.Body.Close()` when the body of the response is nil: the method
of a nil interface value cannot be evaluated. -/
def nilBody : String := "invalid memory address or nil pointer dereference"

/-- The method `FetchAccountByID`. -/
def FetchAccountByID (lib : Lib) (a : AccountAPIClient) (ctx : Context) (accountID : String) :
    Exec (Option AccountData × Option Error) :=
  match validateAccountID lib accountID with
  | some _ => ⟨[], .returned (none, some (.ErrValidationError "accountID isn't uuid"))⟩
  | none =>
    let path := accountsPath ++ "/" ++ accountID
    match a.c.Get ctx path with
    | ⟨_, some err⟩ => ⟨[.Get ctx path], .returned (none, some (.Wrap err "GET request failed"))⟩
    | ⟨none, none⟩ => ⟨[.Get ctx path], .panicked nilResponse⟩
    | ⟨some resp, none⟩ =>
      match resp.Body with
      | none => ⟨[.Get ctx path], .panicked nilBody⟩
      | some body =>
        if resp.StatusCode = http.StatusOK then
          match Decode lib body { Data := .accountData {} } with
          | (_, some err) =>
            ⟨[.Get ctx path], .returned (none, some (.Wrap err "failed to decode body"))⟩
          | (b, none) =>
            match b.Data with
            | .accountData p => ⟨[.Get ctx path], .returned (some p, none)⟩
            | .nil =>
              ⟨[.Get ctx path],
                .panicked "interface conversion: interface {} is nil, not *form.AccountData"⟩
            | .value _ =>
              ⟨[.Get ctx path],
                .panicked "interface conversion: interface {} is not *form.AccountData"⟩
        else if resp.StatusCode = http.StatusNotFound then
          ⟨[.Get ctx path], .returned (none, some .ErrNotFound)⟩
        else
          ⟨[.Get ctx path], .returned (none, some (.ErrUnexpectedStatusCode resp.StatusCode))⟩

/-- The method `CreateAccount`. -/
def CreateAccount (a : AccountAPIClient) (ctx : Context) (req : CreateAccountReq) :
    Exec (Option Error) :=
  match validateCreateAccountReq req with
  | some err => ⟨[], .returned (some err)⟩
  | none =>
    match Encode { Data := req } with
    | .error err => ⟨[], .returned (some (.Wrap err "failed to marshal payload to json"))⟩
    | .ok b =>
      match a.c.Post ctx accountsPath b with
      | ⟨_, some err⟩ =>
        ⟨[.Post ctx accountsPath b], .returned (some (.Wrap err "POST request failed"))⟩
      | ⟨none, none⟩ => ⟨[.Post ctx accountsPath b], .panicked nilResponse⟩
      | ⟨some resp, none⟩ =>
        match resp.Body with
        | none => ⟨[.Post ctx accountsPath b], .panicked nilBody⟩
        | some body =>
          if resp.StatusCode = http.StatusCreated then
            ⟨[.Post ctx accountsPath b], .returned none⟩
          else if resp.StatusCode = http.StatusBadRequest then
            match body.ReadAll with
            | (_, some _) =>
              ⟨[.Post ctx accountsPath b], .returned (some (.ErrBadRequest "unknown"))⟩
            | (p, none) => ⟨[.Post ctx accountsPath b], .returned (some (.ErrBadRequest p))⟩
          else if resp.StatusCode = http.StatusConflict then
            ⟨[.Post ctx accountsPath b],
              .returned (some (.ErrConflict "account already exists"))⟩
          else
            ⟨[.Post ctx accountsPath b],
              .returned (some (.ErrUnexpectedStatusCode resp.StatusCode))⟩

/-- The method `DeleteAccountByID`. -/
def DeleteAccountByID (lib : Lib) (a : AccountAPIClient) (ctx : Context) (accountID : String)
    (version : Int) : Exec (Option Error) :=
  match validateAccountID lib accountID with
  | some _ => ⟨[], .returned (some (.ErrValidationError "accountID isn't uuid"))⟩
  | none =>
    let q := Values.Set [] "version" (formatInt version)
    let path := accountsPath ++ "/" ++ accountID
    match a.c.DeleteWithQueryParams ctx path q with
    | ⟨_, some err⟩ =>
      ⟨[.DeleteWithQueryParams ctx path q],
        .returned (some (.Wrap err "DeleteWithQueryParams request failed"))⟩
    | ⟨none, none⟩ => ⟨[.DeleteWithQueryParams ctx path q], .panicked nilResponse⟩
    | ⟨some resp, none⟩ =>
      match resp.Body with
      | none => ⟨[.DeleteWithQueryParams ctx path q], .panicked nilBody⟩
      | some _ =>
        if resp.StatusCode = http.StatusNoContent then
          ⟨[.DeleteWithQueryParams ctx path q], .returned none⟩
        else if resp.StatusCode = http.StatusNotFound then
          ⟨[.DeleteWithQueryParams ctx path q], .returned (some .ErrNotFound)⟩
        else if resp.StatusCode = http.StatusConflict then
          ⟨[.DeleteWithQueryParams ctx path q],
            .returned (some (.ErrConflict "specified version incorrect"))⟩
        else
          ⟨[.DeleteWithQueryParams ctx path q],
            .returned (some (.ErrUnexpectedStatusCode resp.StatusCode))⟩

/-! ## Clients for the evaluation on concrete inputs -/

/-- A client that answers every call with the same reply. -/
def constClient (r : Reply) : AccountAPIClient :=
  NewAccountAPIClient
    { Get := fun _ _ => r
      Post := fun _ _ _ => r
      DeleteWithQueryParams := fun _ _ _ => r }

/-- A client that answers every call with a response of the given status and body. -/
def respond (status : Int) (body : String) : AccountAPIClient :=
  constClient
    { resp := some { StatusCode := status, Body := some { data := body } }, err := none }

/-- A client that answers every call with a nil error and a response of the given status
whose `Body` is nil. -/
def nilBodyClient (status : Int) : AccountAPIClient :=
  constClient { resp := some { StatusCode := status, Body := none }, err := none }

/-- A client that answers every call with a nil error and a response of the given status
whose body yields the text and then fails with the error. -/
def respondBroken (status : Int) (body : String) (err : Error) : AccountAPIClient :=
  constClient
    { resp := some { StatusCode := status, Body := some { data := body, err := some err } },
      err := none }

/-! ## net/url and net/http, for the package client -/

namespace url

/-- The function `stringContainsCTLByte`: a byte below 0x20 or the byte 0x7f. -/
def stringContainsCTLByte (s : List Char) : Bool :=
  s.any (fun c => c.toNat < 32 ∨ c.toNat = 127)

/-- Whether `unescape` meets a percent sign that two hex digits do not follow. -/
def badEscape : Nat → List Char → Bool
  | 0, _ => false
  | _ + 1, [] => false
  | n + 1, c :: cs =>
    if c = '%' then
      if json.isHex (cs.getD 0 ' ') && json.isHex (cs.getD 1 ' ') then badEscape n (cs.drop 2)
      else true
    else badEscape n cs

/-- Two of the failures of `url.Parse`: a control byte before the first `#`, and in the
fragment after it a percent sign that two hex digits do not follow. The text of the error is
abridged. It stands for the URL parser where a property is evaluated on a concrete input. -/
def Parse (rawURL : String) : Option Error :=
  let u := rawURL.data.takeWhile (fun c => c ≠ '#')
  let frag := (rawURL.data.dropWhile (fun c => c ≠ '#')).drop 1
  if stringContainsCTLByte u then
    some (.Other ("parse " ++ rawURL ++ ": net/url: invalid control character in URL"))
  else if badEscape frag.length frag then
    some (.Other ("parse " ++ rawURL ++ ": invalid URL escape"))
  else none

end url

/-- A `*http.Client` that is not nil, identified by the address it holds. -/
structure http.Client where
  addr : Nat
  deriving DecidableEq, Repr

/-- The variable `http.DefaultClient`. -/
def http.DefaultClient : http.Client := ⟨0⟩

/-! ## client/options.go and client/default.go -/

/-- Modelled from the spec: the struct `Config`, whose declaration is not among the source
files. It holds what the transport is configured with, the underlying HTTP client and the
URL scheme, in the fields `c` and `scheme` that `options.go` and `default.go` assign; `c`
has the type `*http.Client` of the values assigned to it. -/
structure client.Config where
  c : Option http.Client := none
  scheme : String := ""
  deriving DecidableEq, Repr

/-- The type `Option` of the package, a function that changes the `Config` it is given a
pointer to. A nil function, the call of which panics, is left out. -/
abbrev client.Option_ := client.Config → client.Config

/-- The function `WithHTTPClient`. -/
def client.WithHTTPClient (c : Option http.Client) : client.Option_ :=
  fun p => { p with c := c }

/-- The function `WithHTTPS`. -/
def client.WithHTTPS : client.Option_ :=
  fun p => { p with scheme := "https" }

/-- The struct `DefaultClient`. -/
structure client.DefaultClient where
  baseURL : String
  conf : Option client.Config
  deriving DecidableEq, Repr

/-- The function `NewDefaultClient`; `urlParse` is the error `url.Parse` returns. -/
def client.NewDefaultClient (urlParse : String → Option Error) (baseURL : String)
    (opts : List client.Option_) : Option client.DefaultClient × Option Error :=
  if baseURL = "" then (none, some (.Other "empty baseURL"))
  else
    match urlParse baseURL with
    | some err => (none, some (.Wrap err ("failed to parse baseURL: " ++ baseURL)))
    | none =>
      let conf := opts.foldl (fun conf opt => opt conf) {}
      let conf := if conf.c = none then { conf with c := some http.DefaultClient } else conf
      let conf := if conf.scheme = "" then { conf with scheme := "http" } else conf
      (some { conf := some conf, baseURL := baseURL }, none)

/-- The two options the package builds: what `WithHTTPClient` was called with, or
`WithHTTPS`. -/
inductive client.OptionCall where
  | WithHTTPClient (c : Option http.Client)
  | WithHTTPS
  deriving DecidableEq, Repr

/-- The option a call returns. -/
def client.OptionCall.option : client.OptionCall → client.Option_
  | .WithHTTPClient c => client.WithHTTPClient c
  | .WithHTTPS => client.WithHTTPS

/-- The scheme the specification gives the client: "https" if `WithHTTPS` is among the
options and "http" otherwise. -/
def client.specScheme (opts : List client.OptionCall) : String :=
  if client.OptionCall.WithHTTPS ∈ opts then "https" else "http"

/-- The argument of the last `WithHTTPClient` among the options, if there is one. -/
def client.lastWithHTTPClient : List client.OptionCall → Option (Option http.Client)
  | [] => none
  | .WithHTTPClient c :: rest =>
    match client.lastWithHTTPClient rest with
    | some later => some later
    | none => some c
  | .WithHTTPS :: rest => client.lastWithHTTPClient rest

/-- The HTTP client the specification gives the client: the one set by the last
`WithHTTPClient` option when that is not nil, and `http.DefaultClient` otherwise. -/
def client.specHTTPClient (opts : List client.OptionCall) : http.Client :=
  match client.lastWithHTTPClient opts with
  | some (some c) => c
  | _ => http.DefaultClient

/-! ## Validation of the identifier -/

/-- C1: an `accountID` that `uuid.Parse` rejects makes `FetchAccountByID` return a nil
account and an `ErrValidationError`, and `DeleteAccountByID` return an `ErrValidationError`,
for every context, version and client, and no method of the client is called. -/
theorem invalid_id_rejected_before_any_call (lib : Lib) (a : AccountAPIClient) (ctx : Context)
    (accountID : String) (version : Int) (h : lib.uuidParse accountID = false) :
    (∃ reason, (FetchAccountByID lib a ctx accountID).outcome
        = .returned (none, some (.ErrValidationError reason)))
      ∧ (FetchAccountByID lib a ctx accountID).calls = []
      ∧ (∃ reason, (DeleteAccountByID lib a ctx accountID version).outcome
        = .returned (some (.ErrValidationError reason)))
      ∧ (DeleteAccountByID lib a ctx accountID version).calls = [] := by
  simp [FetchAccountByID, DeleteAccountByID, validateAccountID, h]

/-- C1, on the identifier of the tests, with a client that would answer 200. -/
theorem invalid_id_rejected_before_any_call_witness :
    golib.uuidParse "definitely-not-uuid" = false
      ∧ (∃ reason, (FetchAccountByID golib (respond 200 "") ⟨0⟩ "definitely-not-uuid").outcome
        = .returned (none, some (.ErrValidationError reason)))
      ∧ (FetchAccountByID golib (respond 200 "") ⟨0⟩ "definitely-not-uuid").calls = []
      ∧ (∃ reason,
          (DeleteAccountByID golib (respond 200 "") ⟨0⟩ "definitely-not-uuid" 7).outcome
            = .returned (some (.ErrValidationError reason)))
      ∧ (DeleteAccountByID golib (respond 200 "") ⟨0⟩ "definitely-not-uuid" 7).calls = [] :=
  ⟨by decide,
    invalid_id_rejected_before_any_call golib (respond 200 "") ⟨0⟩ "definitely-not-uuid" 7
      (by decide)⟩

/-- C2 as stated fails: on the identifier of the tests the reason carried by the validation
errors of `FetchAccountByID` and `DeleteAccountByID` is not the text "id isn't uuid". -/
theorem invalid_id_reason_is_not_id_isnt_uuid :
    (FetchAccountByID golib (respond 200 "") ⟨0⟩ "definitely-not-uuid").outcome
        ≠ .returned (none, some (.ErrValidationError "id isn't uuid"))
      ∧ (DeleteAccountByID golib (respond 200 "") ⟨0⟩ "definitely-not-uuid" 0).outcome
        ≠ .returned (some (.ErrValidationError "id isn't uuid")) := by
  decide

/-- C2, amended: for every identifier that `uuid.Parse` rejects, the validation error of
`FetchAccountByID` and of `DeleteAccountByID` carries exactly the reason
"accountID isn't uuid". -/
theorem invalid_id_reason (lib : Lib) (a : AccountAPIClient) (ctx : Context)
    (accountID : String) (version : Int) (h : lib.uuidParse accountID = false) :
    (FetchAccountByID lib a ctx accountID).outcome
        = .returned (none, some (.ErrValidationError "accountID isn't uuid"))
      ∧ (DeleteAccountByID lib a ctx accountID version).outcome
        = .returned (some (.ErrValidationError "accountID isn't uuid")) := by
  simp [FetchAccountByID, DeleteAccountByID, validateAccountID, h]

/-- C2 amended, on the identifier of the tests. -/
theorem invalid_id_reason_witness :
    golib.uuidParse "definitely-not-uuid" = false
      ∧ (FetchAccountByID golib (respond 404 "") ⟨1⟩ "definitely-not-uuid").outcome
        = .returned (none, some (.ErrValidationError "accountID isn't uuid"))
      ∧ (DeleteAccountByID golib (respond 404 "") ⟨1⟩ "definitely-not-uuid" 0).outcome
        = .returned (some (.ErrValidationError "accountID isn't uuid")) :=
  ⟨by decide, invalid_id_reason golib (respond 404 "") ⟨1⟩ "definitely-not-uuid" 0 (by decide)⟩

/-! ## Validation of the request to create an account -/

/-- C3: a `CreateAccountReq` without attributes, whatever its other fields, makes
`CreateAccount` return exactly `ErrValidationError{Reason: "Attributes property can't be
empty"}` without calling the client; and `validateCreateAccountReq` accepts every request
that has attributes, whatever they and the other fields are. -/
theorem create_requires_attributes_only (a : AccountAPIClient) (ctx : Context)
    (ID OrganisationID Type_ : String) (attrs : AccountAttributes) :
    CreateAccount a ctx
        { Attributes := none, ID := ID, OrganisationID := OrganisationID, Type_ := Type_ }
        = ⟨[], .returned (some (.ErrValidationError "Attributes property can't be empty"))⟩
      ∧ validateCreateAccountReq
        { Attributes := some attrs, ID := ID, OrganisationID := OrganisationID, Type_ := Type_ }
        = none := by
  simp [CreateAccount, validateCreateAccountReq]

/-! ## The mapping of status codes -/

/-- Encoding the envelope of a request never fails. -/
theorem encode_total (v : d CreateAccountReq) : ∃ posted, Encode v = .ok posted :=
  ⟨_, rfl⟩

/-- C4 as stated fails: an `HTTPClient` can return, with a nil error, a response of status
500 whose `Body` is nil. The identifier parses and the request has attributes, so the input
passes validation and each operation makes its call; 500 is none of the codes listed for any
operation; yet `defer resp.Body.Close()` runs before the switch and panics, so none of the
three operations returns `ErrUnexpectedStatusCode{StatusCode: 500}`. -/
theorem unexpected_status_code_fails_on_nil_body :
    golib.uuidParse "ad27e265-9605-4b4b-a0e5-3003ea9cc4dc" = true
      ∧ (nilBodyClient 500).c.Get ⟨0⟩
          (accountsPath ++ "/" ++ "ad27e265-9605-4b4b-a0e5-3003ea9cc4dc")
        = ⟨some { StatusCode := 500, Body := none }, none⟩
      ∧ (FetchAccountByID golib (nilBodyClient 500) ⟨0⟩
          "ad27e265-9605-4b4b-a0e5-3003ea9cc4dc").outcome = .panicked nilBody
      ∧ (FetchAccountByID golib (nilBodyClient 500) ⟨0⟩
          "ad27e265-9605-4b4b-a0e5-3003ea9cc4dc").outcome
        ≠ .returned (none, some (.ErrUnexpectedStatusCode 500))
      ∧ validateCreateAccountReq { Attributes := some {} } = none
      ∧ (CreateAccount (nilBodyClient 500) ⟨0⟩ { Attributes := some {} }).outcome
        = .panicked nilBody
      ∧ (CreateAccount (nilBodyClient 500) ⟨0⟩ { Attributes := some {} }).outcome
        ≠ .returned (some (.ErrUnexpectedStatusCode 500))
      ∧ (DeleteAccountByID golib (nilBodyClient 500) ⟨0⟩
          "ad27e265-9605-4b4b-a0e5-3003ea9cc4dc" 3).outcome = .panicked nilBody
      ∧ (DeleteAccountByID golib (nilBodyClient 500) ⟨0⟩
          "ad27e265-9605-4b4b-a0e5-3003ea9cc4dc" 3).outcome
        ≠ .returned (some (.ErrUnexpectedStatusCode 500)) := by
  decide

/-- C4, amended: when the input passes validation and the client returns, with a nil error,
a response of status `c` whose `Body` is not nil, `FetchAccountByID` returns
`ErrUnexpectedStatusCode{StatusCode: c}` if `c` is neither 200 nor 404, `CreateAccount` does
if `c` is none of 201, 400 and 409, and `DeleteAccountByID` does if `c` is none of 204, 404
and 409, whatever the text of the body is and whether or not reading it fails. -/
theorem unexpected_status_code (lib : Lib) (a : AccountAPIClient) (ctx : Context)
    (accountID : String) (version : Int) (req : CreateAccountReq) (posted : String)
    (c : Int) (body : Body) :
    (lib.uuidParse accountID = true →
        a.c.Get ctx (accountsPath ++ "/" ++ accountID)
          = ⟨some { StatusCode := c, Body := some body }, none⟩ →
        c ≠ 200 → c ≠ 404 →
        (FetchAccountByID lib a ctx accountID).outcome
          = .returned (none, some (.ErrUnexpectedStatusCode c)))
      ∧ (req.Attributes ≠ none → Encode { Data := req } = .ok posted →
        a.c.Post ctx accountsPath posted = ⟨some { StatusCode := c, Body := some body }, none⟩ →
        c ≠ 201 → c ≠ 400 → c ≠ 409 →
        (CreateAccount a ctx req).outcome = .returned (some (.ErrUnexpectedStatusCode c)))
      ∧ (lib.uuidParse accountID = true →
        a.c.DeleteWithQueryParams ctx (accountsPath ++ "/" ++ accountID)
            (Values.Set [] "version" (formatInt version))
          = ⟨some { StatusCode := c, Body := some body }, none⟩ →
        c ≠ 204 → c ≠ 404 → c ≠ 409 →
        (DeleteAccountByID lib a ctx accountID version).outcome
          = .returned (some (.ErrUnexpectedStatusCode c))) := by
  refine ⟨?_, ?_, ?_⟩
  · intro hid hget h200 h404
    simp [FetchAccountByID, validateAccountID, hid, hget, http.StatusOK, http.StatusNotFound,
      h200, h404]
  · intro hattrs henc hpost h201 h400 h409
    simp [CreateAccount, validateCreateAccountReq, hattrs, henc, hpost, http.StatusCreated,
      http.StatusBadRequest, http.StatusConflict, h201, h400, h409]
  · intro hid hdel h204 h404 h409
    simp [DeleteAccountByID, validateAccountID, hid, hdel, http.StatusNoContent,
      http.StatusNotFound, http.StatusConflict, h204, h404, h409]

/-- C4 amended, on a response of status 500 with the body "boom": a valid identifier, a
request with attributes and the body `CreateAccount` posts for it. -/
theorem unexpected_status_code_witness :
    golib.uuidParse "ad27e265-9605-4b4b-a0e5-3003ea9cc4dc" = true
      ∧ (FetchAccountByID golib (respond 500 "boom") ⟨0⟩
          "ad27e265-9605-4b4b-a0e5-3003ea9cc4dc").outcome
        = .returned (none, some (.ErrUnexpectedStatusCode 500))
      ∧ (CreateAccount (respond 500 "boom") ⟨0⟩ { Attributes := some {} }).outcome
        = .returned (some (.ErrUnexpectedStatusCode 500))
      ∧ (DeleteAccountByID golib (respond 500 "boom") ⟨0⟩
          "ad27e265-9605-4b4b-a0e5-3003ea9cc4dc" 3).outcome
        = .returned (some (.ErrUnexpectedStatusCode 500)) :=
  have h := unexpected_status_code golib (respond 500 "boom") ⟨0⟩
    "ad27e265-9605-4b4b-a0e5-3003ea9cc4dc" 3 { Attributes := some {} }
    "\x7b\"data\":\x7b\"attributes\":\x7b\x7d\x7d\x7d\n" 500 { data := "boom" }
  ⟨by decide, h.1 (by decide) rfl (by decide) (by decide),
    h.2.1 (by decide) rfl rfl (by decide) (by decide) (by decide),
    h.2.2 (by decide) rfl (by decide) (by decide) (by decide)⟩

/-- C5 as stated fails: an `HTTPClient` can return, with a nil error, a response whose
`Body` is nil. For a request with attributes `CreateAccount` then panics in
`defer resp.Body.Close()`, before the switch: on status 201 it does not return nil, on 409 it
does not return `ErrConflict{Reason: "account already exists"}`, and on 400 it returns no
`ErrBadRequest` at all. -/
theorem create_status_mapping_fails_on_nil_body :
    ({ Attributes := some {} } : CreateAccountReq).Attributes ≠ none
      ∧ (nilBodyClient 201).c.Post ⟨0⟩ accountsPath
          "\x7b\"data\":\x7b\"attributes\":\x7b\x7d\x7d\x7d\n"
        = ⟨some { StatusCode := 201, Body := none }, none⟩
      ∧ (CreateAccount (nilBodyClient 201) ⟨0⟩ { Attributes := some {} }).calls
        = [.Post ⟨0⟩ accountsPath "\x7b\"data\":\x7b\"attributes\":\x7b\x7d\x7d\x7d\n"]
      ∧ (CreateAccount (nilBodyClient 201) ⟨0⟩ { Attributes := some {} }).outcome
        = .panicked nilBody
      ∧ (CreateAccount (nilBodyClient 201) ⟨0⟩ { Attributes := some {} }).outcome
        ≠ .returned none
      ∧ (CreateAccount (nilBodyClient 409) ⟨0⟩ { Attributes := some {} }).outcome
        ≠ .returned (some (.ErrConflict "account already exists"))
      ∧ (CreateAccount (nilBodyClient 400) ⟨0⟩ { Attributes := some {} }).outcome
        = .panicked nilBody
      ∧ ∀ reason, (CreateAccount (nilBodyClient 400) ⟨0⟩ { Attributes := some {} }).outcome
        ≠ .returned (some (.ErrBadRequest reason)) :=
  ⟨by decide, rfl, by decide, by decide, by decide, by decide, by decide,
    fun _ h => Outcome.noConfusion ((show _ = Outcome.panicked nilBody by decide).symm.trans h)⟩

/-- C5, amended: for a request with attributes and a response of status `c` whose `Body` is
not nil, returned with a nil error, `CreateAccount` returns nil on 201,
`ErrConflict{Reason: "account already exists"}` on 409, and on 400 an `ErrBadRequest` whose
reason is the whole text of the body when `io.ReadAll` reads it without error and "unknown"
when `io.ReadAll` fails. -/
theorem create_status_mapping (a : AccountAPIClient) (ctx : Context) (req : CreateAccountReq)
    (posted : String) (c : Int) (body : Body) (hattrs : req.Attributes ≠ none)
    (henc : Encode { Data := req } = .ok posted)
    (hpost : a.c.Post ctx accountsPath posted
      = ⟨some { StatusCode := c, Body := some body }, none⟩) :
    (c = 201 → (CreateAccount a ctx req).outcome = .returned none)
      ∧ (c = 409 → (CreateAccount a ctx req).outcome
          = .returned (some (.ErrConflict "account already exists")))
      ∧ (c = 400 → body.ReadAll.2 = none →
          (CreateAccount a ctx req).outcome = .returned (some (.ErrBadRequest body.data)))
      ∧ (c = 400 → body.ReadAll.2 ≠ none →
          (CreateAccount a ctx req).outcome = .returned (some (.ErrBadRequest "unknown"))) := by
  refine ⟨?_, ?_, ?_, ?_⟩
  · intro hc
    simp [CreateAccount, validateCreateAccountReq, hattrs, henc, hpost, http.StatusCreated, hc]
  · intro hc
    simp [CreateAccount, validateCreateAccountReq, hattrs, henc, hpost, http.StatusCreated,
      http.StatusBadRequest, http.StatusConflict, hc]
  · intro hc hread
    have hall : body.ReadAll = (body.data, none) := by
      rw [← hread]; rfl
    simp [CreateAccount, validateCreateAccountReq, hattrs, henc, hpost, http.StatusCreated,
      http.StatusBadRequest, hc, hall]
  · intro hc hread
    obtain ⟨e, he⟩ := Option.ne_none_iff_exists'.mp hread
    have hall : body.ReadAll = (body.data, some e) := by
      rw [← he]; rfl
    simp [CreateAccount, validateCreateAccountReq, hattrs, henc, hpost, http.StatusCreated,
      http.StatusBadRequest, hc, hall]

/-- C5 amended, on the request of the tests: a 400 response whose body is the text
"name is required", a 400 response whose body fails with "connection reset" after the text
"name is", a 201 response and a 409 response. -/
theorem create_status_mapping_witness :
    (CreateAccount (respond 400 "name is required") ⟨0⟩
          { Attributes := some { Country := some "GB" }, Type_ := "accounts" }).outcome
        = .returned (some (.ErrBadRequest "name is required"))
      ∧ (CreateAccount (respondBroken 400 "name is" (.Other "connection reset")) ⟨0⟩
          { Attributes := some { Country := some "GB" }, Type_ := "accounts" }).outcome
        = .returned (some (.ErrBadRequest "unknown"))
      ∧ (CreateAccount (respond 201 "") ⟨0⟩
          { Attributes := some { Country := some "GB" }, Type_ := "accounts" }).outcome
        = .returned none
      ∧ (CreateAccount (respond 409 "") ⟨0⟩
          { Attributes := some { Country := some "GB" }, Type_ := "accounts" }).outcome
        = .returned (some (.ErrConflict "account already exists")) :=
  ⟨(create_status_mapping (respond 400 "name is required") ⟨0⟩
      { Attributes := some { Country := some "GB" }, Type_ := "accounts" }
      "\x7b\"data\":\x7b\"attributes\":\x7b\"country\":\"GB\"\x7d,\"type\":\"accounts\"\x7d\x7d\n"
      400 { data := "name is required" } (by decide) rfl rfl).2.2.1 rfl rfl,
    (create_status_mapping (respondBroken 400 "name is" (.Other "connection reset")) ⟨0⟩
      { Attributes := some { Country := some "GB" }, Type_ := "accounts" }
      "\x7b\"data\":\x7b\"attributes\":\x7b\"country\":\"GB\"\x7d,\"type\":\"accounts\"\x7d\x7d\n"
      400 { data := "name is", err := some (.Other "connection reset") }
      (by decide) rfl rfl).2.2.2 rfl (by decide),
    (create_status_mapping (respond 201 "") ⟨0⟩
      { Attributes := some { Country := some "GB" }, Type_ := "accounts" }
      "\x7b\"data\":\x7b\"attributes\":\x7b\"country\":\"GB\"\x7d,\"type\":\"accounts\"\x7d\x7d\n"
      201 { data := "" } (by decide) rfl rfl).1 rfl,
    (create_status_mapping (respond 409 "") ⟨0⟩
      { Attributes := some { Country := some "GB" }, Type_ := "accounts" }
      "\x7b\"data\":\x7b\"attributes\":\x7b\"country\":\"GB\"\x7d,\"type\":\"accounts\"\x7d\x7d\n"
      409 { data := "" } (by decide) rfl rfl).2.1 rfl⟩

/-- C6 as stated fails: an `HTTPClient` can return, with a nil error, a response whose
`Body` is nil. For an identifier that parses `DeleteAccountByID` then panics in
`defer resp.Body.Close()`, before the switch: on status 204 it does not return nil, so a
status of 204 does not make the error nil, on 404 it does not return `ErrNotFound{}` and on
409 it does not return `ErrConflict{Reason: "specified version incorrect"}`. -/
theorem delete_status_mapping_fails_on_nil_body :
    golib.uuidParse "ad27e265-9605-4b4b-a0e5-3003ea9cc4dc" = true
      ∧ (nilBodyClient 204).c.DeleteWithQueryParams ⟨0⟩
          (accountsPath ++ "/" ++ "ad27e265-9605-4b4b-a0e5-3003ea9cc4dc")
          (Values.Set [] "version" (formatInt 0))
        = ⟨some { StatusCode := 204, Body := none }, none⟩
      ∧ (DeleteAccountByID golib (nilBodyClient 204) ⟨0⟩
          "ad27e265-9605-4b4b-a0e5-3003ea9cc4dc" 0).outcome = .panicked nilBody
      ∧ (DeleteAccountByID golib (nilBodyClient 204) ⟨0⟩
          "ad27e265-9605-4b4b-a0e5-3003ea9cc4dc" 0).outcome ≠ .returned none
      ∧ (DeleteAccountByID golib (nilBodyClient 404) ⟨0⟩
          "ad27e265-9605-4b4b-a0e5-3003ea9cc4dc" 0).outcome
        ≠ .returned (some .ErrNotFound)
      ∧ (DeleteAccountByID golib (nilBodyClient 409) ⟨0⟩
          "ad27e265-9605-4b4b-a0e5-3003ea9cc4dc" 0).outcome
        ≠ .returned (some (.ErrConflict "specified version incorrect")) := by
  decide

/-- C6, amended: for an identifier that parses and a response of status `c` whose `Body` is
not nil, returned with a nil error, `DeleteAccountByID` returns nil on 204, `ErrNotFound{}`
on 404 and `ErrConflict{Reason: "specified version incorrect"}` on 409, and its error is nil
exactly when the status is 204. -/
theorem delete_status_mapping (lib : Lib) (a : AccountAPIClient) (ctx : Context)
    (accountID : String) (version : Int) (c : Int) (body : Body)
    (hid : lib.uuidParse accountID = true)
    (hdel : a.c.DeleteWithQueryParams ctx (accountsPath ++ "/" ++ accountID)
        (Values.Set [] "version" (formatInt version))
      = ⟨some { StatusCode := c, Body := some body }, none⟩) :
    (c = 204 → (DeleteAccountByID lib a ctx accountID version).outcome = .returned none)
      ∧ (c = 404 → (DeleteAccountByID lib a ctx accountID version).outcome
          = .returned (some .ErrNotFound))
      ∧ (c = 409 → (DeleteAccountByID lib a ctx accountID version).outcome
          = .returned (some (.ErrConflict "specified version incorrect")))
      ∧ ((DeleteAccountByID lib a ctx accountID version).outcome = .returned none ↔ c = 204) := by
  refine ⟨?_, ?_, ?_, ?_⟩
  · intro hc
    simp [DeleteAccountByID, validateAccountID, hid, hdel, http.StatusNoContent, hc]
  · intro hc
    simp [DeleteAccountByID, validateAccountID, hid, hdel, http.StatusNoContent,
      http.StatusNotFound, hc]
  · intro hc
    simp [DeleteAccountByID, validateAccountID, hid, hdel, http.StatusNoContent,
      http.StatusNotFound, http.StatusConflict, hc]
  · simp only [DeleteAccountByID, validateAccountID, hid, hdel, http.StatusNoContent,
      http.StatusNotFound, http.StatusConflict, if_true]
    by_cases h1 : c = 204
    · simp [h1]
    · by_cases h2 : c = 404
      · simp [h2]
      · by_cases h3 : c = 409
        · simp [h3]
        · simp [h1, h2, h3]

/-- C6 amended, on a 404 response, a 204 response and a 409 response with an empty body. -/
theorem delete_status_mapping_witness :
    golib.uuidParse "ad27e265-9605-4b4b-a0e5-3003ea9cc4dc" = true
      ∧ (DeleteAccountByID golib (respond 404 "") ⟨0⟩
          "ad27e265-9605-4b4b-a0e5-3003ea9cc4dc" 0).outcome = .returned (some .ErrNotFound)
      ∧ (DeleteAccountByID golib (respond 204 "") ⟨0⟩
          "ad27e265-9605-4b4b-a0e5-3003ea9cc4dc" 0).outcome = .returned none
      ∧ (DeleteAccountByID golib (respond 409 "") ⟨0⟩
          "ad27e265-9605-4b4b-a0e5-3003ea9cc4dc" 0).outcome
        = .returned (some (.ErrConflict "specified version incorrect")) :=
  ⟨by decide,
    (delete_status_mapping golib (respond 404 "") ⟨0⟩ "ad27e265-9605-4b4b-a0e5-3003ea9cc4dc" 0
      404 { data := "" } (by decide) rfl).2.1 rfl,
    (delete_status_mapping golib (respond 204 "") ⟨0⟩ "ad27e265-9605-4b4b-a0e5-3003ea9cc4dc" 0
      204 { data := "" } (by decide) rfl).1 rfl,
    (delete_status_mapping golib (respond 409 "") ⟨0⟩ "ad27e265-9605-4b4b-a0e5-3003ea9cc4dc" 0
      409 { data := "" } (by decide) rfl).2.2.1 rfl⟩

/-! ## FetchAccountByID on a 200 response -/

/-- C7: on a 200 response whose body is the text `{"data":null}`, with a valid identifier,
`FetchAccountByID` calls `Get` once and then returns neither an account nor an error: the
decoder reports no error and has set the field `Data` to nil, so the type assertion
`b.Data.(*AccountData)` panics. -/
theorem fetch_null_data_panics :
    FetchAccountByID golib (respond 200 "\x7b\"data\":null\x7d") ⟨0⟩
        "ad27e265-9605-4b4b-a0e5-3003ea9cc4dc"
      = ⟨[.Get ⟨0⟩ "/v1/organisation/accounts/ad27e265-9605-4b4b-a0e5-3003ea9cc4dc"],
          .panicked "interface conversion: interface {} is nil, not *form.AccountData"⟩ := by
  decide

/-! ## Errors of the transport -/

/-- C8: when the input passes validation and the one call of the client returns the error
`e` (with any response, and whatever the type of `e`), each of `FetchAccountByID`,
`CreateAccount` and `DeleteAccountByID` returns an error made by `errors.Wrap` whose cause
is `e` and whose type is none of the five of `error.go`, and has called the client exactly
once. -/
theorem transport_error_wrapped_once (lib : Lib) (a : AccountAPIClient) (ctx : Context)
    (accountID : String) (version : Int) (req : CreateAccountReq) (posted : String)
    (r : Option Response) (e : Error) :
    (lib.uuidParse accountID = true →
        a.c.Get ctx (accountsPath ++ "/" ++ accountID) = ⟨r, some e⟩ →
        ∃ err, FetchAccountByID lib a ctx accountID
            = ⟨[.Get ctx (accountsPath ++ "/" ++ accountID)], .returned (none, some err)⟩
          ∧ err.cause? = some e ∧ err.isTyped = false)
      ∧ (req.Attributes ≠ none → Encode { Data := req } = .ok posted →
        a.c.Post ctx accountsPath posted = ⟨r, some e⟩ →
        ∃ err, CreateAccount a ctx req
            = ⟨[.Post ctx accountsPath posted], .returned (some err)⟩
          ∧ err.cause? = some e ∧ err.isTyped = false)
      ∧ (lib.uuidParse accountID = true →
        a.c.DeleteWithQueryParams ctx (accountsPath ++ "/" ++ accountID)
            (Values.Set [] "version" (formatInt version)) = ⟨r, some e⟩ →
        ∃ err, DeleteAccountByID lib a ctx accountID version
            = ⟨[.DeleteWithQueryParams ctx (accountsPath ++ "/" ++ accountID)
                (Values.Set [] "version" (formatInt version))], .returned (some err)⟩
          ∧ err.cause? = some e ∧ err.isTyped = false) := by
  refine ⟨?_, ?_, ?_⟩
  · intro hid hget
    exact ⟨.Wrap e "GET request failed",
      by simp [FetchAccountByID, validateAccountID, hid, hget], rfl, rfl⟩
  · intro hattrs henc hpost
    exact ⟨.Wrap e "POST request failed",
      by simp [CreateAccount, validateCreateAccountReq, hattrs, henc, hpost], rfl, rfl⟩
  · intro hid hdel
    exact ⟨.Wrap e "DeleteWithQueryParams request failed",
      by simp [DeleteAccountByID, validateAccountID, hid, hdel], rfl, rfl⟩

/-- C8, on a client whose every call fails with an `ErrNotFound`, response and error both
non-nil: the three operations return the wrapped error, which is not an `ErrNotFound`. -/
theorem transport_error_wrapped_once_witness :
    FetchAccountByID golib
        (constClient ⟨some { StatusCode := 404, Body := some { data := "" } }, some .ErrNotFound⟩) ⟨0⟩
        "ad27e265-9605-4b4b-a0e5-3003ea9cc4dc"
      = ⟨[.Get ⟨0⟩ "/v1/organisation/accounts/ad27e265-9605-4b4b-a0e5-3003ea9cc4dc"],
          .returned (none, some (.Wrap .ErrNotFound "GET request failed"))⟩
      ∧ (∃ err, CreateAccount
            (constClient ⟨some { StatusCode := 404, Body := some { data := "" } }, some .ErrNotFound⟩)
            ⟨0⟩ { Attributes := some {} }
          = ⟨[.Post ⟨0⟩ accountsPath "\x7b\"data\":\x7b\"attributes\":\x7b\x7d\x7d\x7d\n"],
              .returned (some err)⟩
          ∧ err.cause? = some .ErrNotFound ∧ err.isTyped = false)
      ∧ (∃ err, DeleteAccountByID golib
            (constClient ⟨some { StatusCode := 404, Body := some { data := "" } }, some .ErrNotFound⟩)
            ⟨0⟩ "ad27e265-9605-4b4b-a0e5-3003ea9cc4dc" 0
          = ⟨[.DeleteWithQueryParams ⟨0⟩
                (accountsPath ++ "/" ++ "ad27e265-9605-4b4b-a0e5-3003ea9cc4dc")
                (Values.Set [] "version" (formatInt 0))], .returned (some err)⟩
          ∧ err.cause? = some .ErrNotFound ∧ err.isTyped = false) :=
  have h := transport_error_wrapped_once golib
    (constClient ⟨some { StatusCode := 404, Body := some { data := "" } }, some .ErrNotFound⟩) ⟨0⟩
    "ad27e265-9605-4b4b-a0e5-3003ea9cc4dc" 0 { Attributes := some {} }
    "\x7b\"data\":\x7b\"attributes\":\x7b\x7d\x7d\x7d\n"
    (some { StatusCode := 404, Body := some { data := "" } }) .ErrNotFound
  ⟨by decide, h.2.1 (by decide) rfl rfl, h.2.2 (by decide) rfl⟩

/-! ## The bounds of the scanner and of `unquote` are never reached -/

namespace json

/-- Skipping white space does not lengthen the input. -/
theorem skipSpace_length_le (cs : List Char) : (skipSpace cs).length ≤ cs.length := by
  induction cs with
  | nil => simp [skipSpace]
  | cons c cs ih =>
    simp only [skipSpace]
    split
    · simp only [List.length_cons]; omega
    · exact le_refl _

/-- A mapped result is a value only when the result is. -/
theorem Scan.map_eq_ok {α β : Type} (f : α → β) (x : Scan α) (b : β) (rest : List Char)
    (h : x.map f = .ok b rest) : ∃ a, x = .ok a rest := by
  cases x with
  | ok a r => simp only [Scan.map, Scan.ok.injEq] at h; exact ⟨a, by rw [h.2]⟩
  | syntaxError => simp [Scan.map] at h
  | incomplete => simp [Scan.map] at h

/-- Scanning a string uses up some input. -/
theorem scanString_rest (cs : List Char) :
    ∀ (st : StrState) (raw rest : List Char), scanString st cs = .ok raw rest →
      rest.length < cs.length := by
  induction cs with
  | nil => intro st raw rest h; simp [scanString] at h
  | cons c cs ih =>
    intro st raw rest h
    cases st with
    | inString =>
      simp only [scanString] at h
      split_ifs at h with h1 h2 h3
      · simp only [Scan.ok.injEq] at h; rw [← h.2]; simp
      · obtain ⟨a, ha⟩ := Scan.map_eq_ok _ _ _ _ h
        have := ih _ _ _ ha
        simp only [List.length_cons]; omega
      · obtain ⟨a, ha⟩ := Scan.map_eq_ok _ _ _ _ h
        have := ih _ _ _ ha
        simp only [List.length_cons]; omega
    | esc =>
      simp only [scanString] at h
      split_ifs at h with h1 h2
      · obtain ⟨a, ha⟩ := Scan.map_eq_ok _ _ _ _ h
        have := ih _ _ _ ha
        simp only [List.length_cons]; omega
      · obtain ⟨a, ha⟩ := Scan.map_eq_ok _ _ _ _ h
        have := ih _ _ _ ha
        simp only [List.length_cons]; omega
    | escU due =>
      simp only [scanString] at h
      split_ifs at h with h1 h2
      · obtain ⟨a, ha⟩ := Scan.map_eq_ok _ _ _ _ h
        have := ih _ _ _ ha
        simp only [List.length_cons]; omega
      · obtain ⟨a, ha⟩ := Scan.map_eq_ok _ _ _ _ h
        have := ih _ _ _ ha
        simp only [List.length_cons]; omega

/-- Scanning a number does not lengthen the input. -/
theorem scanNumber_rest (cs : List Char) :
    ∀ (st : NumState) (lit rest : List Char), scanNumber st cs = .ok lit rest →
      rest.length ≤ cs.length := by
  induction cs with
  | nil =>
    intro st lit rest h
    simp only [scanNumber] at h
    split_ifs at h
    simp only [Scan.ok.injEq] at h; rw [← h.2]
  | cons c cs ih =>
    intro st lit rest h
    simp only [scanNumber] at h
    split at h
    · obtain ⟨a, ha⟩ := Scan.map_eq_ok _ _ _ _ h
      have := ih _ _ _ ha
      simp only [List.length_cons]; omega
    · split_ifs at h
      simp only [Scan.ok.injEq] at h; rw [← h.2]

/-- Scanning a literal does not lengthen the input. -/
theorem scanLiteral_rest (es : List Char) :
    ∀ (cs : List Char) (u : Unit) (rest : List Char), scanLiteral es cs = .ok u rest →
      rest.length ≤ cs.length := by
  induction es with
  | nil => intro cs u rest h; simp only [scanLiteral, Scan.ok.injEq] at h; rw [← h.2]
  | cons e es ih =>
    intro cs u rest h
    cases cs with
    | nil => simp [scanLiteral] at h
    | cons c cs =>
      simp only [scanLiteral] at h
      split_ifs at h
      have := ih _ _ _ h
      simp only [List.length_cons]; omega

/-- Scanning a value, the elements of an array or the members of an object uses up some
input. -/
theorem scan_rest (n : Nat) :
    (∀ (d : Nat) (cs : List Char) (v : Value) (rest : List Char),
        scanValue n d cs = .ok v rest → rest.length < cs.length)
      ∧ (∀ (d : Nat) (cs : List Char) (l : List Value) (rest : List Char),
        scanElements n d cs = .ok l rest → rest.length < cs.length)
      ∧ (∀ (d : Nat) (cs : List Char) (l : List (List Char × Value)) (rest : List Char),
        scanMembers n d cs = .ok l rest → rest.length < cs.length) := by
  induction n with
  | zero =>
    refine ⟨?_, ?_, ?_⟩ <;> intro d cs v rest h
    · simp [scanValue] at h
    · simp [scanElements] at h
    · simp [scanMembers] at h
  | succ n ih =>
    obtain ⟨ihV, ihE, ihM⟩ := ih
    refine ⟨?_, ?_, ?_⟩
    · intro d cs v rest h
      cases cs with
      | nil => simp [scanValue] at h
      | cons c cs =>
        have hsk := skipSpace_length_le cs
        simp only [scanValue] at h
        simp only [List.length_cons]
        split_ifs at h
        · split at h
          · simp at h
          · rename_i c2 cs2 hs
            rw [hs] at hsk
            simp only [List.length_cons] at hsk
            split_ifs at h
            · simp only [Scan.ok.injEq] at h; rw [← h.2]; omega
            · obtain ⟨a, ha⟩ := Scan.map_eq_ok _ _ _ _ h
              have := ihM _ _ _ _ ha
              simp only [List.length_cons] at this; omega
        · split at h
          · simp at h
          · rename_i c2 cs2 hs
            rw [hs] at hsk
            simp only [List.length_cons] at hsk
            split_ifs at h
            · simp only [Scan.ok.injEq] at h; rw [← h.2]; omega
            · obtain ⟨a, ha⟩ := Scan.map_eq_ok _ _ _ _ h
              have := ihE _ _ _ _ ha
              simp only [List.length_cons] at this; omega
        · obtain ⟨a, ha⟩ := Scan.map_eq_ok _ _ _ _ h
          have := scanString_rest _ _ _ _ ha
          omega
        · obtain ⟨a, ha⟩ := Scan.map_eq_ok _ _ _ _ h
          have := scanNumber_rest _ _ _ _ ha
          omega
        · obtain ⟨a, ha⟩ := Scan.map_eq_ok _ _ _ _ h
          have := scanNumber_rest _ _ _ _ ha
          omega
        · obtain ⟨a, ha⟩ := Scan.map_eq_ok _ _ _ _ h
          have := scanNumber_rest _ _ _ _ ha
          omega
        · obtain ⟨a, ha⟩ := Scan.map_eq_ok _ _ _ _ h
          have := scanLiteral_rest _ _ _ _ ha
          omega
        · obtain ⟨a, ha⟩ := Scan.map_eq_ok _ _ _ _ h
          have := scanLiteral_rest _ _ _ _ ha
          omega
        · obtain ⟨a, ha⟩ := Scan.map_eq_ok _ _ _ _ h
          have := scanLiteral_rest _ _ _ _ ha
          omega
    · intro d cs l rest h
      simp only [scanElements] at h
      split at h
      · simp at h
      · simp at h
      · rename_i v r1 hv
        have h1 := ihV _ _ _ _ hv
        have hsk := skipSpace_length_le r1
        split at h
        · simp at h
        · rename_i c cs2 hs
          rw [hs] at hsk
          simp only [List.length_cons] at hsk
          split_ifs at h
          · obtain ⟨a, ha⟩ := Scan.map_eq_ok _ _ _ _ h
            have := ihE _ _ _ _ ha
            have := skipSpace_length_le cs2
            omega
          · simp only [Scan.ok.injEq] at h; rw [← h.2]; omega
    · intro d cs l rest h
      cases cs with
      | nil => simp [scanMembers] at h
      | cons c cs =>
        simp only [scanMembers] at h
        simp only [List.length_cons]
        split_ifs at h
        split at h
        · simp at h
        · simp at h
        · rename_i key r1 hk
          have h1 := scanString_rest _ _ _ _ hk
          have hsk := skipSpace_length_le r1
          split at h
          · simp at h
          · rename_i c2 cs2 hs
            rw [hs] at hsk
            simp only [List.length_cons] at hsk
            split_ifs at h
            split at h
            · simp at h
            · simp at h
            · rename_i v r3 hv
              have h3 := ihV _ _ _ _ hv
              have hsk2 := skipSpace_length_le cs2
              have hsk3 := skipSpace_length_le r3
              split at h
              · simp at h
              · rename_i c3 cs3 hs3
                rw [hs3] at hsk3
                simp only [List.length_cons] at hsk3
                split_ifs at h
                · obtain ⟨a, ha⟩ := Scan.map_eq_ok _ _ _ _ h
                  have := ihM _ _ _ _ ha
                  have := skipSpace_length_le cs3
                  omega
                · simp only [Scan.ok.injEq] at h; rw [← h.2]; omega

/-- A bound above twice the length of the input (and one more for elements and members)
is never reached: every larger bound gives the same result. -/
theorem scan_bound (n : Nat) :
    ∀ m, n ≤ m →
      (∀ (d : Nat) (cs : List Char), 2 * cs.length < n → scanValue m d cs = scanValue n d cs)
        ∧ (∀ (d : Nat) (cs : List Char), 2 * cs.length + 1 < n →
          scanElements m d cs = scanElements n d cs)
        ∧ (∀ (d : Nat) (cs : List Char), 2 * cs.length + 1 < n →
          scanMembers m d cs = scanMembers n d cs) := by
  induction n with
  | zero =>
    intro m _
    exact ⟨fun _ _ h => by omega, fun _ _ h => by omega, fun _ _ h => by omega⟩
  | succ n ih =>
    intro m hm
    obtain ⟨m, rfl⟩ : ∃ j, m = j + 1 := ⟨m - 1, by omega⟩
    obtain ⟨ihV, ihE, ihM⟩ := ih m (by omega)
    refine ⟨?_, ?_, ?_⟩
    · intro d cs hn
      cases cs with
      | nil => simp only [scanValue]
      | cons c cs =>
        simp only [List.length_cons] at hn
        have hsk := skipSpace_length_le cs
        cases hs : skipSpace cs with
        | nil => simp only [scanValue, hs]
        | cons c2 cs2 =>
          rw [hs] at hsk
          simp only [List.length_cons] at hsk
          have e1 := ihE (d + 1) (c2 :: cs2) (by simp only [List.length_cons]; omega)
          have e2 := ihM (d + 1) (c2 :: cs2) (by simp only [List.length_cons]; omega)
          simp only [scanValue, hs, e1, e2]
    · intro d cs hn
      have eV := ihV d cs (by omega)
      simp only [scanElements, eV]
      cases hv : scanValue n d cs with
      | syntaxError => rfl
      | incomplete => rfl
      | ok v r1 =>
        have h1 := (scan_rest n).1 _ _ _ _ hv
        have hsk := skipSpace_length_le r1
        cases hs : skipSpace r1 with
        | nil => simp only [hs]
        | cons c cs2 =>
          rw [hs] at hsk
          simp only [List.length_cons] at hsk
          have hsk2 := skipSpace_length_le cs2
          have eE := ihE d (skipSpace cs2) (by omega)
          simp only [hs, eE]
    · intro d cs hn
      cases cs with
      | nil => simp only [scanMembers]
      | cons c cs =>
        simp only [List.length_cons] at hn
        simp only [scanMembers]
        cases hk : scanString .inString cs with
        | syntaxError => rfl
        | incomplete => rfl
        | ok key r1 =>
          have h1 := scanString_rest _ _ _ _ hk
          have hsk := skipSpace_length_le r1
          cases hs : skipSpace r1 with
          | nil => simp only [hs]
          | cons c2 cs2 =>
            rw [hs] at hsk
            simp only [List.length_cons] at hsk
            have hsk2 := skipSpace_length_le cs2
            have eV := ihV d (skipSpace cs2) (by omega)
            simp only [hs, eV]
            cases hv : scanValue n d (skipSpace cs2) with
            | syntaxError => rfl
            | incomplete => rfl
            | ok v r3 =>
              have h3 := (scan_rest n).1 _ _ _ _ hv
              have hsk3 := skipSpace_length_le r3
              cases hs3 : skipSpace r3 with
              | nil => simp only [hs3]
              | cons c3 cs3 =>
                rw [hs3] at hsk3
                simp only [List.length_cons] at hsk3
                have hsk4 := skipSpace_length_le cs3
                have eM := ihM d (skipSpace cs3) (by omega)
                simp only [hs3, eM]

/-- The bound of `scan` is never reached: every larger bound gives the same result. -/
theorem scan_bound_enough (data : List Char) (m : Nat) (h : 2 * data.length + 2 ≤ m) :
    scanValue m 0 (skipSpace data) = scan data := by
  have hsk := skipSpace_length_le data
  exact ((scan_bound (2 * data.length + 2)) m h).1 0 (skipSpace data) (by omega)

/-- The bound of `unquote` is never reached: every larger bound gives the same result. -/
theorem unquoteAux_bound (n : Nat) :
    ∀ (m : Nat) (cs : List Char), cs.length ≤ n → n ≤ m → unquoteAux m cs = unquoteAux n cs := by
  induction n with
  | zero =>
    intro m cs h _
    have : cs = [] := List.length_eq_zero.mp (by omega)
    subst this
    cases m <;> simp [unquoteAux]
  | succ n ih =>
    intro m cs h hm
    obtain ⟨m, rfl⟩ : ∃ j, m = j + 1 := ⟨m - 1, by omega⟩
    cases cs with
    | nil => simp [unquoteAux]
    | cons c cs =>
      simp only [List.length_cons] at h
      cases cs with
      | nil => simp only [unquoteAux, ih m [] (by simp) (by omega)]
      | cons e cs1 =>
        simp only [List.length_cons] at h
        have h1 : (List.drop 4 cs1).length ≤ n := by simp only [List.length_drop]; omega
        have h2 : (List.drop 6 (List.drop 4 cs1)).length ≤ n := by
          simp only [List.length_drop]; omega
        simp only [unquoteAux, ih m cs1 (by omega) (by omega),
          ih m (e :: cs1) (by simp only [List.length_cons]; omega) (by omega),
          ih m _ h1 (by omega), ih m _ h2 (by omega)]

/-! ## The scanner reads back the strings the encoder writes -/

/-- Mapping twice is mapping the composition. -/
theorem Scan.map_map {α β γ : Type} (f : α → β) (g : β → γ) (x : Scan α) :
    (x.map f).map g = x.map (fun a => g (f a)) := by
  cases x <;> rfl

/-- The digits of the table `hex` are hex digits for the scanner. -/
theorem isHex_hexDigit (i : Nat) (h : i < 16) : isHex (hexDigit i) = true := by
  interval_cases i <;> decide

/-- The function `getu4` reads a digit of the table `hex` as its index. -/
theorem hexValue_hexDigit (i : Nat) (h : i < 16) : hexValue (hexDigit i) = some i := by
  interval_cases i <;> decide

/-- The shapes of what the encoder writes for a character. -/
theorem escapeChar_shape (c : Char) :
    (escapeChar c = [c] ∧ c ≠ quote ∧ c ≠ backslash ∧ ¬ c.toNat < 32)
      ∨ (∃ e, escapeChar c = [backslash, e] ∧ e ≠ 'u' ∧ isShortEscape e = true
          ∧ shortEscape e = some c)
      ∨ (∃ h1 h2 h3 h4, escapeChar c = [backslash, 'u', h1, h2, h3, h4]
          ∧ isHex h1 = true ∧ isHex h2 = true ∧ isHex h3 = true ∧ isHex h4 = true
          ∧ (∀ rest, getu4 (backslash :: 'u' :: h1 :: h2 :: h3 :: h4 :: rest) = some c.toNat)
          ∧ c.toNat < 0xD800) := by
  by_cases h1 : c = backslash ∨ c = quote
  · right; left
    refine ⟨c, by simp only [escapeChar, h1, if_true], ?_, ?_, ?_⟩
    · rcases h1 with h | h <;> subst h <;> decide
    · rcases h1 with h | h <;> subst h <;> decide
    · rcases h1 with h | h <;> subst h <;> decide
  by_cases h2 : c = Char.ofNat 8
  · right; left
    exact ⟨'b', by simp only [escapeChar, h1, h2, if_true, if_false]; decide, by decide, by decide, by subst h2; decide⟩
  by_cases h3 : c = Char.ofNat 12
  · right; left
    exact ⟨'f', by simp only [escapeChar, h1, h2, h3, if_true, if_false]; decide, by decide,
      by decide, by subst h3; decide⟩
  by_cases h4 : c = '\n'
  · right; left
    exact ⟨'n', by simp only [escapeChar, h1, h2, h3, h4, if_true, if_false]; decide, by decide,
      by decide, by subst h4; decide⟩
  by_cases h5 : c = '\r'
  · right; left
    exact ⟨'r', by simp only [escapeChar, h1, h2, h3, h4, h5, if_true, if_false]; decide,
      by decide, by decide, by subst h5; decide⟩
  by_cases h6 : c = '\t'
  · right; left
    exact ⟨'t', by simp only [escapeChar, h1, h2, h3, h4, h5, h6, if_true, if_false]; decide,
      by decide, by decide, by subst h6; decide⟩
  by_cases h7 : c.toNat < 32 ∨ c = '<' ∨ c = '>' ∨ c = '&'
  · right; right
    have hlt : c.toNat < 256 := by
      rcases h7 with h | h | h | h
      · omega
      · subst h; decide
      · subst h; decide
      · subst h; decide
    have hd : c.toNat / 16 < 16 := by omega
    have hm : c.toNat % 16 < 16 := by omega
    refine ⟨'0', '0', hexDigit (c.toNat / 16), hexDigit (c.toNat % 16),
      by simp only [escapeChar, h1, h2, h3, h4, h5, h6, h7, if_true, if_false], by decide,
      by decide, isHex_hexDigit _ hd, isHex_hexDigit _ hm, ?_, by omega⟩
    intro rest
    have h0 : hexValue '0' = some 0 := by decide
    simp only [getu4, h0, hexValue_hexDigit _ hd, hexValue_hexDigit _ hm, and_self, if_true]
    congr 1
    omega
  by_cases h8 : c = Char.ofNat 0x2028
  · right; right
    refine ⟨'2', '0', '2', '8',
      by subst h8; decide,
      by decide, by decide, by decide, by decide, ?_, by subst h8; decide⟩
    intro rest
    subst h8
    rfl
  by_cases h9 : c = Char.ofNat 0x2029
  · right; right
    refine ⟨'2', '0', '2', '9',
      by subst h9; decide,
      by decide, by decide, by decide, by decide, ?_, by subst h9; decide⟩
    intro rest
    subst h9
    rfl
  left
  refine ⟨by simp only [escapeChar, h1, h2, h3, h4, h5, h6, h7, h8, h9, if_false], ?_, ?_, ?_⟩
  · exact fun h => h1 (Or.inr h)
  · exact fun h => h1 (Or.inl h)
  · exact fun h => h7 (Or.inl h)

/-- The scanner reads what the encoder wrote for a character and goes on. -/
theorem scanString_escapeChar (c : Char) (rest : List Char) :
    scanString .inString (escapeChar c ++ rest)
      = (scanString .inString rest).map (escapeChar c ++ ·) := by
  rcases escapeChar_shape c with ⟨h, hq, hb, hc⟩ | ⟨e, h, hu, hs, -⟩
    | ⟨h1, h2, h3, h4, h, x1, x2, x3, x4, -, -⟩
  · rw [h]
    simp [scanString, hq, hb, hc]
  · rw [h]
    have hbq : backslash ≠ quote := by decide
    simp [scanString, hbq, hu, hs, Scan.map_map]
  · rw [h]
    have hbq : backslash ≠ quote := by decide
    simp [scanString, hbq, x1, x2, x3, x4, Scan.map_map]

/-- The scanner reads what the encoder wrote for a string up to the closing quote. -/
theorem scanString_escapeChars (cs rest : List Char) :
    scanString .inString (escapeChars cs ++ quote :: rest) = .ok (escapeChars cs) rest := by
  induction cs with
  | nil => simp [escapeChars, scanString]
  | cons c cs ih =>
    simp only [escapeChars, List.append_assoc, scanString_escapeChar, ih, Scan.map]

/-- The encoder writes at least one character for a character. -/
theorem escapeChar_length_pos (c : Char) : 0 < (escapeChar c).length := by
  rcases escapeChar_shape c with ⟨h, -⟩ | ⟨e, h, -⟩ | ⟨h1, h2, h3, h4, h, -⟩ <;> rw [h] <;> simp

/-- One round of `unquoteBytes` gives back the character the encoder wrote. -/
theorem unquoteAux_escapeChar (c : Char) (n : Nat) (rest : List Char) :
    unquoteAux (n + 1) (escapeChar c ++ rest) = (unquoteAux n rest).map (c :: ·) := by
  rcases escapeChar_shape c with ⟨h, hq, hb, hc⟩ | ⟨e, h, hu, -, hs⟩
    | ⟨h1, h2, h3, h4, h, -, -, -, -, hg, hlt⟩
  · rw [h]
    change unquoteAux (n + 1) (c :: rest) = _
    simp only [unquoteAux, hq, hb, hc, if_false, or_self]
  · rw [h]
    change unquoteAux (n + 1) (backslash :: e :: rest) = _
    simp only [unquoteAux, hu, hs, if_true, if_false]
  · rw [h]
    change unquoteAux (n + 1) (backslash :: 'u' :: h1 :: h2 :: h3 :: h4 :: rest) = _
    have hns : ¬ (0xD800 ≤ c.toNat ∧ c.toNat < 0xE000) := by omega
    simp only [unquoteAux, hg, if_true, hns, if_false, List.drop_succ_cons, List.drop_zero,
      Char.ofNat_toNat]

/-- With a bound of at least the length of the text, `unquoteBytes` gives back the
characters the encoder wrote. -/
theorem unquoteAux_escapeChars (cs : List Char) :
    ∀ n, (escapeChars cs).length ≤ n → unquoteAux n (escapeChars cs) = some cs := by
  induction cs with
  | nil => intro n _; cases n <;> simp [escapeChars, unquoteAux]
  | cons c cs ih =>
    intro n hn
    have hpos := escapeChar_length_pos c
    simp only [escapeChars, List.length_append] at hn
    obtain ⟨m, rfl⟩ : ∃ m, n = m + 1 := ⟨n - 1, by omega⟩
    simp only [escapeChars, unquoteAux_escapeChar, ih m (by omega), Option.map_some']

/-- The function `unquote` gives back the string the encoder wrote. -/
theorem unquote_escape (s : String) : unquote (escape s) = some s := by
  simp [unquote, escape, unquoteAux_escapeChars s.data _ (le_refl _)]

/-! ## The scanner reads back the values the encoder writes -/

/-- The text of a plain value starts with a character that is no white space and closes
neither an array nor an object. -/
theorem print_head (k : Nat) (v : Value) (h : Plain k v) :
    ∃ c cs, print v = c :: cs ∧ isSpace c = false ∧ c ≠ ']' ∧ c ≠ '}' := by
  cases v with
  | null => exact ⟨_, _, rfl, by decide, by decide, by decide⟩
  | bool b => cases b <;> exact ⟨_, _, rfl, by decide, by decide, by decide⟩
  | num l => simp [Plain] at h
  | str r => exact ⟨_, _, rfl, by decide, by decide, by decide⟩
  | arr xs => cases xs <;> exact ⟨_, _, rfl, by decide, by decide, by decide⟩
  | obj ms =>
    cases ms with
    | nil => exact ⟨_, _, rfl, by decide, by decide, by decide⟩
    | cons m ms => obtain ⟨key, v⟩ := m; exact ⟨_, _, rfl, by decide, by decide, by decide⟩

/-- Nothing is skipped before a character that is no white space. -/
theorem skipSpace_cons (c : Char) (cs : List Char) (h : isSpace c = false) :
    skipSpace (c :: cs) = c :: cs := by
  simp [skipSpace, h]

/-- Nothing is skipped before the text of a plain value. -/
theorem skipSpace_print (k : Nat) (v : Value) (h : Plain k v) (rest : List Char) :
    skipSpace (print v ++ rest) = print v ++ rest := by
  obtain ⟨c, cs, hp, hs, -, -⟩ := print_head k v h
  rw [hp]
  exact skipSpace_cons c _ hs

/-- The text of a plain value is not empty. -/
theorem print_length_pos (k : Nat) (v : Value) (h : Plain k v) : 0 < (print v).length := by
  obtain ⟨c, cs, hp, -⟩ := print_head k v h
  simp [hp]

/-- The text that ends an array is not empty. -/
theorem printElements_length_pos (xs : List Value) : 0 < (printElements xs).length := by
  cases xs <;> simp [printElements]

/-- The scanner on the three literals. -/
theorem scanValue_literal (n d : Nat) (rest : List Char) :
    scanValue (n + 1) d ('n' :: 'u' :: 'l' :: 'l' :: rest) = .ok .null rest
      ∧ scanValue (n + 1) d ('t' :: 'r' :: 'u' :: 'e' :: rest) = .ok (.bool true) rest
      ∧ scanValue (n + 1) d ('f' :: 'a' :: 'l' :: 's' :: 'e' :: rest) = .ok (.bool false) rest :=
  ⟨rfl, rfl, rfl⟩

/-- The scanner on an opening quote. -/
theorem scanValue_string (n d : Nat) (cs : List Char) :
    scanValue (n + 1) d (quote :: cs) = (scanString .inString cs).map .str := rfl

/-- The scanner on an opening bracket, below the nesting limit. -/
theorem scanValue_array (n d : Nat) (cs : List Char) (c2 : Char) (cs2 : List Char)
    (hd : d < maxNestingDepth) (hs : skipSpace cs = c2 :: cs2) :
    scanValue (n + 1) d ('[' :: cs)
      = if c2 = ']' then .ok (.arr []) cs2 else (scanElements n (d + 1) (c2 :: cs2)).map .arr := by
  have h1 : ¬ ('[' : Char) = '{' := by decide
  have h2 : ¬ maxNestingDepth ≤ d := by omega
  simp only [scanValue, h1, h2, if_true, if_false, hs]

/-- The scanner on an opening brace, below the nesting limit. -/
theorem scanValue_object (n d : Nat) (cs : List Char) (c2 : Char) (cs2 : List Char)
    (hd : d < maxNestingDepth) (hs : skipSpace cs = c2 :: cs2) :
    scanValue (n + 1) d ('{' :: cs)
      = if c2 = '}' then .ok (.obj []) cs2 else (scanMembers n (d + 1) (c2 :: cs2)).map .obj := by
  have h2 : ¬ maxNestingDepth ≤ d := by omega
  simp only [scanValue, h2, if_true, if_false, hs]

/-- The scanner after an element of an array. -/
theorem scanElements_step (n d : Nat) (cs rest : List Char) (v : Value) (c : Char)
    (cs2 : List Char) (hv : scanValue n d cs = .ok v rest) (hs : skipSpace rest = c :: cs2) :
    scanElements (n + 1) d cs
      = if c = ',' then (scanElements n d (skipSpace cs2)).map (v :: ·)
        else if c = ']' then .ok [v] cs2 else .syntaxError := by
  simp only [scanElements, hv, hs]

/-- The scanner after a member of an object. -/
theorem scanMembers_step (n d : Nat) (cs rest rest3 : List Char) (key : List Char) (v : Value)
    (cs2 : List Char) (c3 : Char) (cs3 : List Char)
    (hk : scanString .inString cs = .ok key rest) (hs : skipSpace rest = ':' :: cs2)
    (hv : scanValue n d (skipSpace cs2) = .ok v rest3) (hs3 : skipSpace rest3 = c3 :: cs3) :
    scanMembers (n + 1) d (quote :: cs)
      = if c3 = ',' then (scanMembers n d (skipSpace cs3)).map ((key, v) :: ·)
        else if c3 = '}' then .ok [(key, v)] cs3 else .syntaxError := by
  simp only [scanMembers, hk, hs, hv, hs3, if_true]

/-- With a bound above twice the length of the text, and within the nesting limit, the
scanner reads back a plain value, the elements of an array and the members of an object, and
leaves what follows them. -/
theorem scan_print_aux (n : Nat) :
    (∀ (v : Value) (k d : Nat) (rest : List Char), Plain k v → d + k ≤ maxNestingDepth →
        2 * (print v).length < n → scanValue n d (print v ++ rest) = .ok v rest)
      ∧ (∀ (x : Value) (xs : List Value) (k d : Nat) (rest : List Char), Plain k x →
        PlainElements k xs → d + k ≤ maxNestingDepth →
        2 * ((print x).length + (printElements xs).length) < n →
        scanElements n d (print x ++ (printElements xs ++ rest)) = .ok (x :: xs) rest)
      ∧ (∀ (key : List Char) (v : Value) (ms : List (List Char × Value)) (k d : Nat)
        (rest : List Char),
        (∀ r, scanString .inString (key ++ quote :: r) = .ok key r) → Plain k v →
        PlainMembers k ms → d + k ≤ maxNestingDepth →
        2 * (key.length + (print v).length + (printMembers ms).length + 3) < n →
        scanMembers n d (quote :: (key ++ quote :: ':' :: (print v ++ (printMembers ms ++ rest))))
          = .ok ((key, v) :: ms) rest) := by
  induction n with
  | zero => exact ⟨fun _ _ _ _ _ _ h => by omega, fun _ _ _ _ _ _ _ _ h => by omega,
      fun _ _ _ _ _ _ _ _ _ _ h => by omega⟩
  | succ n ih =>
    obtain ⟨ihV, ihE, ihM⟩ := ih
    refine ⟨?_, ?_, ?_⟩
    · intro v k d rest hp hd hn
      cases v with
      | null => exact (scanValue_literal n d rest).1
      | bool b =>
        cases b
        · exact (scanValue_literal n d rest).2.2
        · exact (scanValue_literal n d rest).2.1
      | num l => simp [Plain] at hp
      | str raw =>
        have hp2 := hp
        simp only [Plain] at hp2
        change scanValue (n + 1) d (quote :: (raw ++ [quote] ++ rest)) = _
        rw [scanValue_string, List.append_assoc, List.singleton_append, hp2 rest]
        rfl
      | arr xs =>
        simp only [Plain] at hp
        obtain ⟨hk, hp⟩ := hp
        obtain ⟨k, rfl⟩ : ∃ j, k = j + 1 := ⟨k - 1, by omega⟩
        simp only [Nat.add_sub_cancel] at hp
        · cases xs with
          | nil =>
            change scanValue (n + 1) d ('[' :: ']' :: rest) = _
            rw [scanValue_array n d _ ']' rest (by omega) (skipSpace_cons _ _ (by decide))]
            simp
          | cons x xs =>
            simp only [PlainElements] at hp
            obtain ⟨c, cs, hc, hsp, hb, -⟩ := print_head k x hp.1
            have hlen : (print (.arr (x :: xs))).length
                = 1 + (print x).length + (printElements xs).length := by
              simp [print]; omega
            have hcs : print x ++ (printElements xs ++ rest) = c :: (cs ++ (printElements xs ++ rest)) := by
              rw [hc]; rfl
            change scanValue (n + 1) d ('[' :: (print x ++ printElements xs ++ rest)) = _
            rw [List.append_assoc,
              scanValue_array n d _ c (cs ++ (printElements xs ++ rest)) (by omega)
                (by rw [hcs]; exact skipSpace_cons _ _ hsp),
              if_neg hb, ← hcs, ihE x xs k (d + 1) rest hp.1 hp.2 (by omega) (by omega)]
            rfl
      | obj ms =>
        simp only [Plain] at hp
        obtain ⟨hk, hp⟩ := hp
        obtain ⟨k, rfl⟩ : ∃ j, k = j + 1 := ⟨k - 1, by omega⟩
        simp only [Nat.add_sub_cancel] at hp
        · cases ms with
          | nil =>
            change scanValue (n + 1) d ('{' :: '}' :: rest) = _
            rw [scanValue_object n d _ '}' rest (by omega) (skipSpace_cons _ _ (by decide))]
            simp
          | cons m ms =>
            obtain ⟨key, v⟩ := m
            simp only [PlainMembers] at hp
            have hlen : (print (.obj ((key, v) :: ms))).length
                = 4 + key.length + (print v).length + (printMembers ms).length := by
              simp [print]; omega
            have hq : quote ≠ '}' := by decide
            change scanValue (n + 1) d
              ('{' :: (quote :: key ++ quote :: ':' :: print v ++ printMembers ms ++ rest)) = _
            have hnorm : quote :: key ++ quote :: ':' :: print v ++ printMembers ms ++ rest
                = quote :: (key ++ quote :: ':' :: (print v ++ (printMembers ms ++ rest))) := by
              simp
            rw [hnorm, scanValue_object n d _ quote _ (by omega) (skipSpace_cons _ _ (by decide)),
              if_neg hq, ihM key v ms k (d + 1) rest hp.1 hp.2.1 hp.2.2 (by omega) (by omega)]
            rfl
    · intro x xs k d rest hx hxs hd hn
      have hpos := printElements_length_pos xs
      have hv := ihV x k d (printElements xs ++ rest) hx hd (by omega)
      cases xs with
      | nil =>
        rw [scanElements_step n d _ _ x ']' rest hv (skipSpace_cons _ _ (by decide))]
        simp
      | cons y ys =>
        simp only [PlainElements] at hxs
        have hlen : (printElements (y :: ys)).length
            = 1 + (print y).length + (printElements ys).length := by
          simp [printElements]; omega
        have hpx := print_length_pos k x hx
        rw [scanElements_step n d _ _ x ','  (print y ++ (printElements ys ++ rest)) hv
            (by simp [printElements, skipSpace_cons _ _ (show isSpace ',' = false by decide)]),
          if_pos rfl, skipSpace_print k y hxs.1,
          ihE y ys k d rest hxs.1 hxs.2 hd (by omega)]
        rfl
    · intro key v ms k d rest hkey hv hms hd hn
      have hval := ihV v k d (printMembers ms ++ rest) hv hd (by omega)
      cases ms with
      | nil =>
        rw [scanMembers_step n d _ _ _ key v _ '}' rest (hkey _)
            (skipSpace_cons _ _ (by decide)) (by rw [skipSpace_print k v hv]; exact hval)
            (skipSpace_cons _ _ (by decide))]
        simp
      | cons m ms =>
        obtain ⟨key2, v2⟩ := m
        simp only [PlainMembers] at hms
        have hlen : (printMembers ((key2, v2) :: ms)).length
            = 4 + key2.length + (print v2).length + (printMembers ms).length := by
          simp [printMembers]; omega
        have hpv := print_length_pos k v hv
        rw [scanMembers_step n d _ _ _ key v _ ','
            (quote :: (key2 ++ quote :: ':' :: (print v2 ++ (printMembers ms ++ rest)))) (hkey _)
            (skipSpace_cons _ _ (by decide)) (by rw [skipSpace_print k v hv]; exact hval)
            (by simp [printMembers, skipSpace_cons _ _ (show isSpace ',' = false by decide)]),
          if_pos rfl, skipSpace_cons _ _ (by decide),
          ihM key2 v2 ms k d rest hms.1 hms.2.1 hms.2.2 hd (by omega)]
        rfl

/-- The scanner reads back what the encoder wrote. -/
theorem scan_print (v : Value) (k : Nat) (rest : List Char) (h : Plain k v)
    (hk : k ≤ maxNestingDepth) : scan (print v ++ rest) = .ok v rest := by
  obtain ⟨c, cs, hp, hs, -, -⟩ := print_head k v h
  have h1 : skipSpace (print v ++ rest) = print v ++ rest := skipSpace_print k v h rest
  unfold scan
  rw [h1]
  exact (scan_print_aux _).1 v k 0 rest h (by omega) (by simp; omega)

end json

open json

/-! ## The decoder stores back the request the encoder wrote -/

/-- A string written by the encoder is stored back as itself. -/
theorem decodeString_ofString (s cur : String) : decodeString (ofString s) cur = some s := by
  simp [decodeString, ofString, unquote_escape]

/-- The strings of an array written by the encoder are stored back as themselves. -/
theorem decodeStringElements_ofString (l : List String) :
    decodeStringElements (l.map ofString) = some l := by
  induction l with
  | nil => rfl
  | cons x xs ih => simp [decodeStringElements, decodeString_ofString, ih]

/-- Storing the members of two lists in a row. -/
theorem decodeMembers_append {S F : Type} (fields : List (String × F))
    (store : F → Value → S → Option S) (ms1 ms2 : List (List Char × Value)) (cur mid out : S)
    (h1 : decodeMembers fields store ms1 cur = some mid)
    (h2 : decodeMembers fields store ms2 mid = some out) :
    decodeMembers fields store (ms1 ++ ms2) cur = some out := by
  induction ms1 generalizing cur with
  | nil =>
    simp only [decodeMembers, Option.some.injEq] at h1
    subst h1
    simpa using h2
  | cons m ms ih =>
    obtain ⟨rawKey, v⟩ := m
    simp only [List.cons_append, decodeMembers] at h1 ⊢
    cases hk : unquote rawKey with
    | none => simp [hk] at h1
    | some key =>
      simp only [hk] at h1 ⊢
      cases hf : findField fields key with
      | none =>
        simp only [hf] at h1 ⊢
        exact ih cur h1
      | some f =>
        simp only [hf] at h1 ⊢
        cases hs : store f v cur with
        | none => simp [hs] at h1
        | some cur2 =>
          simp only [hs] at h1 ⊢
          exact ih cur2 h1

/-- Storing the one member a field under `omitempty` gives, if any. -/
theorem decodeMembers_omitempty {S F : Type} (fields : List (String × F))
    (store : F → Value → S → Option S) (name : String) (f : F) (ov : Option Value) (cur out : S)
    (hkey : unquote name.data = some name) (hf : findField fields name = some f)
    (hnone : ov = none → out = cur) (hsome : ∀ v, ov = some v → store f v cur = some out) :
    decodeMembers fields store (omitempty name ov) cur = some out := by
  cases ov with
  | none => simp [omitempty, decodeMembers, hnone rfl]
  | some v => simp [omitempty, decodeMembers, hkey, hf, hsome v rfl]

/-- Storing the member of a `string` field under `omitempty`. -/
theorem step_string {S F : Type} (fields : List (String × F))
    (store : F → Value → S → Option S) (name : String) (f : F) (s : String) (cur out : S)
    (hkey : unquote name.data = some name) (hf : findField fields name = some f)
    (hempty : s = "" → out = cur) (hstore : store f (ofString s) cur = some out) :
    decodeMembers fields store (omitempty name (fieldOfString s)) cur = some out := by
  apply decodeMembers_omitempty fields store name f _ cur out hkey hf
  · intro h
    by_cases hs : s = ""
    · exact hempty hs
    · simp [fieldOfString, hs] at h
  · intro v h
    by_cases hs : s = ""
    · simp [fieldOfString, hs] at h
    · simp only [fieldOfString, hs, if_false, Option.some.injEq] at h
      rw [← h]; exact hstore

/-- Storing the member of a `*string` field under `omitempty`. -/
theorem step_stringPtr {S F : Type} (fields : List (String × F))
    (store : F → Value → S → Option S) (name : String) (f : F) (p : Option String) (cur out : S)
    (hkey : unquote name.data = some name) (hf : findField fields name = some f)
    (hnil : p = none → out = cur) (hstore : ∀ s, p = some s → store f (ofString s) cur = some out) :
    decodeMembers fields store (omitempty name (fieldOfStringPtr p)) cur = some out := by
  apply decodeMembers_omitempty fields store name f _ cur out hkey hf
  · intro h
    cases p with
    | none => exact hnil rfl
    | some s => simp [fieldOfStringPtr] at h
  · intro v h
    cases p with
    | none => simp [fieldOfStringPtr] at h
    | some s =>
      simp only [fieldOfStringPtr, Option.map_some', Option.some.injEq] at h
      rw [← h]; exact hstore s rfl

/-- Storing the member of a `*bool` field under `omitempty`. -/
theorem step_boolPtr {S F : Type} (fields : List (String × F))
    (store : F → Value → S → Option S) (name : String) (f : F) (p : Option Bool) (cur out : S)
    (hkey : unquote name.data = some name) (hf : findField fields name = some f)
    (hnil : p = none → out = cur) (hstore : ∀ b, p = some b → store f (.bool b) cur = some out) :
    decodeMembers fields store (omitempty name (fieldOfBoolPtr p)) cur = some out := by
  apply decodeMembers_omitempty fields store name f _ cur out hkey hf
  · intro h
    cases p with
    | none => exact hnil rfl
    | some s => simp [fieldOfBoolPtr] at h
  · intro v h
    cases p with
    | none => simp [fieldOfBoolPtr] at h
    | some s =>
      simp only [fieldOfBoolPtr, Option.map_some', Option.some.injEq] at h
      rw [← h]; exact hstore s rfl

/-- Storing the member of a `[]string` field under `omitempty`, when the slice is nil or
has an element. -/
theorem step_stringSlice {S F : Type} (fields : List (String × F))
    (store : F → Value → S → Option S) (name : String) (f : F) (p : Option (List String))
    (cur out : S)
    (hkey : unquote name.data = some name) (hf : findField fields name = some f)
    (hp : p ≠ some []) (hnil : p = none → out = cur)
    (hstore : ∀ l, p = some l → store f (.arr (l.map ofString)) cur = some out) :
    decodeMembers fields store (omitempty name (fieldOfStringSlice p)) cur = some out := by
  apply decodeMembers_omitempty fields store name f _ cur out hkey hf
  · intro h
    match p, hp, hnil, h with
    | none, _, hnil, _ => exact hnil rfl
    | some [], hp, _, _ => exact absurd rfl hp
    | some (x :: xs), _, _, h => simp [fieldOfStringSlice] at h
  · intro v h
    match p, hp, hstore, h with
    | none, _, _, h => simp [fieldOfStringSlice] at h
    | some [], hp, _, _ => exact absurd rfl hp
    | some (x :: xs), _, hstore, h =>
      simp only [fieldOfStringSlice, Option.some.injEq] at h
      rw [← h]; exact hstore _ rfl

/-- An array of strings written by the encoder is stored back as the slice. -/
theorem decodeStringSlice_ofString (l : List String) :
    decodeStringSlice (.arr (l.map ofString)) = some (some l) := by
  simp [decodeStringSlice, decodeStringElements_ofString]

/-- A string written by the encoder is stored back behind the pointer. -/
theorem decodeStringPtr_ofString (s : String) (cur : Option String) :
    decodeStringPtr (ofString s) cur = some (some s) := by
  simp [decodeStringPtr, ofString, decodeString, unquote_escape]

/-- The object written for an `AccountAttributes` whose slices are nil or non-empty is
stored back, in a zero `AccountAttributes`, as the same attributes. -/
theorem decode_attributes (a : AccountAttributes) (hAlt : a.AlternativeNames ≠ some [])
    (hName : a.Name ≠ some []) :
    decodeStruct AccountAttributes.fields AccountAttributes.store a.toJSON {} = some a := by
  obtain ⟨f1, f2, f3, f4, f5, f6, f7, f8, f9, f10, f11, f12, f13, f14, f15⟩ := a
  simp only at hAlt hName
  simp only [AccountAttributes.toJSON, decodeStruct]
  have h1 := (show decodeMembers AccountAttributes.fields AccountAttributes.store
        (omitempty "account_classification" _) _ = some
      { AccountClassification := f1 } from
      step_stringPtr _ _ "account_classification" .AccountClassification f1 _ _
      (by decide) (by decide) (by rintro rfl; rfl)
      (by intro s hs; subst hs; simp [AccountAttributes.store, decodeStringPtr_ofString]))
  have h2 := decodeMembers_append _ _ _ _ _ _ _ h1
    (show decodeMembers AccountAttributes.fields AccountAttributes.store
        (omitempty "account_matching_opt_out" _) _ = some
      { AccountClassification := f1, AccountMatchingOptOut := f2 } from
      step_boolPtr _ _ "account_matching_opt_out" .AccountMatchingOptOut f2 _ _
      (by decide) (by decide) (by rintro rfl; rfl)
      (by intro s hs; subst hs; rfl))
  have h3 := decodeMembers_append _ _ _ _ _ _ _ h2
    (show decodeMembers AccountAttributes.fields AccountAttributes.store
        (omitempty "account_number" _) _ = some
      { AccountClassification := f1, AccountMatchingOptOut := f2, AccountNumber := f3 } from
      step_string _ _ "account_number" .AccountNumber f3 _ _
      (by decide) (by decide) (by rintro rfl; rfl)
      (by simp [AccountAttributes.store, decodeString_ofString]))
  have h4 := decodeMembers_append _ _ _ _ _ _ _ h3
    (show decodeMembers AccountAttributes.fields AccountAttributes.store
        (omitempty "alternative_names" _) _ = some
      { AccountClassification := f1, AccountMatchingOptOut := f2, AccountNumber := f3,
        AlternativeNames := f4 } from
      step_stringSlice _ _ "alternative_names" .AlternativeNames f4 _ _
      (by decide) (by decide) hAlt (by rintro rfl; rfl)
      (by intro l hl; subst hl; simp [AccountAttributes.store, decodeStringSlice_ofString]))
  have h5 := decodeMembers_append _ _ _ _ _ _ _ h4
    (show decodeMembers AccountAttributes.fields AccountAttributes.store
        (omitempty "bank_id" _) _ = some
      { AccountClassification := f1, AccountMatchingOptOut := f2, AccountNumber := f3,
        AlternativeNames := f4, BankID := f5 } from
      step_string _ _ "bank_id" .BankID f5 _ _
      (by decide) (by decide) (by rintro rfl; rfl)
      (by simp [AccountAttributes.store, decodeString_ofString]))
  have h6 := decodeMembers_append _ _ _ _ _ _ _ h5
    (show decodeMembers AccountAttributes.fields AccountAttributes.store
        (omitempty "bank_id_code" _) _ = some
      { AccountClassification := f1, AccountMatchingOptOut := f2, AccountNumber := f3,
        AlternativeNames := f4, BankID := f5, BankIDCode := f6 } from
      step_string _ _ "bank_id_code" .BankIDCode f6 _ _
      (by decide) (by decide) (by rintro rfl; rfl)
      (by simp [AccountAttributes.store, decodeString_ofString]))
  have h7 := decodeMembers_append _ _ _ _ _ _ _ h6
    (show decodeMembers AccountAttributes.fields AccountAttributes.store
        (omitempty "base_currency" _) _ = some
      { AccountClassification := f1, AccountMatchingOptOut := f2, AccountNumber := f3,
        AlternativeNames := f4, BankID := f5, BankIDCode := f6, BaseCurrency := f7 } from
      step_string _ _ "base_currency" .BaseCurrency f7 _ _
      (by decide) (by decide) (by rintro rfl; rfl)
      (by simp [AccountAttributes.store, decodeString_ofString]))
  have h8 := decodeMembers_append _ _ _ _ _ _ _ h7
    (show decodeMembers AccountAttributes.fields AccountAttributes.store
        (omitempty "bic" _) _ = some
      { AccountClassification := f1, AccountMatchingOptOut := f2, AccountNumber := f3,
        AlternativeNames := f4, BankID := f5, BankIDCode := f6, BaseCurrency := f7, Bic := f8 } from
      step_string _ _ "bic" .Bic f8 _ _
      (by decide) (by decide) (by rintro rfl; rfl)
      (by simp [AccountAttributes.store, decodeString_ofString]))
  have h9 := decodeMembers_append _ _ _ _ _ _ _ h8
    (show decodeMembers AccountAttributes.fields AccountAttributes.store
        (omitempty "country" _) _ = some
      { AccountClassification := f1, AccountMatchingOptOut := f2, AccountNumber := f3,
        AlternativeNames := f4, BankID := f5, BankIDCode := f6, BaseCurrency := f7, Bic := f8,
        Country := f9 } from
      step_stringPtr _ _ "country" .Country f9 _ _
      (by decide) (by decide) (by rintro rfl; rfl)
      (by intro s hs; subst hs; simp [AccountAttributes.store, decodeStringPtr_ofString]))
  have h10 := decodeMembers_append _ _ _ _ _ _ _ h9
    (show decodeMembers AccountAttributes.fields AccountAttributes.store
        (omitempty "iban" _) _ = some
      { AccountClassification := f1, AccountMatchingOptOut := f2, AccountNumber := f3,
        AlternativeNames := f4, BankID := f5, BankIDCode := f6, BaseCurrency := f7, Bic := f8,
        Country := f9, Iban := f10 } from
      step_string _ _ "iban" .Iban f10 _ _
      (by decide) (by decide) (by rintro rfl; rfl)
      (by simp [AccountAttributes.store, decodeString_ofString]))
  have h11 := decodeMembers_append _ _ _ _ _ _ _ h10
    (show decodeMembers AccountAttributes.fields AccountAttributes.store
        (omitempty "joint_account" _) _ = some
      { AccountClassification := f1, AccountMatchingOptOut := f2, AccountNumber := f3,
        AlternativeNames := f4, BankID := f5, BankIDCode := f6, BaseCurrency := f7, Bic := f8,
        Country := f9, Iban := f10, JointAccount := f11 } from
      step_boolPtr _ _ "joint_account" .JointAccount f11 _ _
      (by decide) (by decide) (by rintro rfl; rfl)
      (by intro s hs; subst hs; rfl))
  have h12 := decodeMembers_append _ _ _ _ _ _ _ h11
    (show decodeMembers AccountAttributes.fields AccountAttributes.store
        (omitempty "name" _) _ = some
      { AccountClassification := f1, AccountMatchingOptOut := f2, AccountNumber := f3,
        AlternativeNames := f4, BankID := f5, BankIDCode := f6, BaseCurrency := f7, Bic := f8,
        Country := f9, Iban := f10, JointAccount := f11, Name := f12 } from
      step_stringSlice _ _ "name" .Name f12 _ _
      (by decide) (by decide) hName (by rintro rfl; rfl)
      (by intro l hl; subst hl; simp [AccountAttributes.store, decodeStringSlice_ofString]))
  have h13 := decodeMembers_append _ _ _ _ _ _ _ h12
    (show decodeMembers AccountAttributes.fields AccountAttributes.store
        (omitempty "secondary_identification" _) _ = some
      { AccountClassification := f1, AccountMatchingOptOut := f2, AccountNumber := f3,
        AlternativeNames := f4, BankID := f5, BankIDCode := f6, BaseCurrency := f7, Bic := f8,
        Country := f9, Iban := f10, JointAccount := f11, Name := f12,
        SecondaryIdentification := f13 } from
      step_string _ _ "secondary_identification" .SecondaryIdentification f13 _ _
      (by decide) (by decide) (by rintro rfl; rfl)
      (by simp [AccountAttributes.store, decodeString_ofString]))
  have h14 := decodeMembers_append _ _ _ _ _ _ _ h13
    (show decodeMembers AccountAttributes.fields AccountAttributes.store
        (omitempty "status" _) _ = some
      { AccountClassification := f1, AccountMatchingOptOut := f2, AccountNumber := f3,
        AlternativeNames := f4, BankID := f5, BankIDCode := f6, BaseCurrency := f7, Bic := f8,
        Country := f9, Iban := f10, JointAccount := f11, Name := f12,
        SecondaryIdentification := f13, Status := f14 } from
      step_stringPtr _ _ "status" .Status f14 _ _
      (by decide) (by decide) (by rintro rfl; rfl)
      (by intro s hs; subst hs; simp [AccountAttributes.store, decodeStringPtr_ofString]))
  have h15 := decodeMembers_append _ _ _ _ _ _ _ h14
    (show decodeMembers AccountAttributes.fields AccountAttributes.store
        (omitempty "switched" _) _ = some
      { AccountClassification := f1, AccountMatchingOptOut := f2, AccountNumber := f3,
        AlternativeNames := f4, BankID := f5, BankIDCode := f6, BaseCurrency := f7, Bic := f8,
        Country := f9, Iban := f10, JointAccount := f11, Name := f12,
        SecondaryIdentification := f13, Status := f14, Switched := f15 } from
      step_boolPtr _ _ "switched" .Switched f15 _ _
      (by decide) (by decide) (by rintro rfl; rfl)
      (by intro s hs; subst hs; rfl))
  exact h15

/-- The object written for the attributes is stored back behind a nil pointer. -/
theorem decodeAttributesPtr_toJSON (a : AccountAttributes) (hAlt : a.AlternativeNames ≠ some [])
    (hName : a.Name ≠ some []) : decodeAttributesPtr a.toJSON none = some (some a) := by
  change (decodeStruct AccountAttributes.fields AccountAttributes.store a.toJSON {}).map some = _
  rw [decode_attributes a hAlt hName]
  rfl

/-- The object written for a request with attributes is stored back, in a zero
`AccountData`, as the account with the four fields of the request. -/
theorem decode_request (lib : Lib) (a : AccountAttributes) (ID OrganisationID Type_ : String)
    (hAlt : a.AlternativeNames ≠ some []) (hName : a.Name ≠ some []) :
    decodeStruct AccountData.fields (AccountData.store lib)
        (CreateAccountReq.toJSON
          { Attributes := some a, ID := ID, OrganisationID := OrganisationID, Type_ := Type_ }) {}
      = some { Attributes := some a, ID := ID, OrganisationID := OrganisationID, Type_ := Type_ } := by
  simp only [CreateAccountReq.toJSON, decodeStruct]
  have h1 := (show decodeMembers AccountData.fields (AccountData.store lib)
      (omitempty "attributes" (Option.map AccountAttributes.toJSON (some a))) {}
      = some { Attributes := some a } from
    decodeMembers_omitempty _ _ "attributes" .Attributes _ _ _ (by decide) (by decide)
      (by intro h; simp at h)
      (by
        intro v hv
        simp only [Option.map_some', Option.some.injEq] at hv
        subst hv
        simp [AccountData.store, decodeAttributesPtr_toJSON a hAlt hName]))
  have h2 := decodeMembers_append _ _ _ _ _ _ _ h1
    (show decodeMembers AccountData.fields (AccountData.store lib) (omitempty "id" _) _
        = some { Attributes := some a, ID := ID } from
      step_string _ _ "id" .ID ID _ _ (by decide) (by decide) (by rintro rfl; rfl)
        (by simp [AccountData.store, decodeString_ofString]))
  have h3 := decodeMembers_append _ _ _ _ _ _ _ h2
    (show decodeMembers AccountData.fields (AccountData.store lib) (omitempty "organisation_id" _) _
        = some { Attributes := some a, ID := ID, OrganisationID := OrganisationID } from
      step_string _ _ "organisation_id" .OrganisationID OrganisationID _ _ (by decide) (by decide)
        (by rintro rfl; rfl) (by simp [AccountData.store, decodeString_ofString]))
  have h4 := decodeMembers_append _ _ _ _ _ _ _ h3
    (show decodeMembers AccountData.fields (AccountData.store lib) (omitempty "type" _) _
        = some { Attributes := some a, ID := ID, OrganisationID := OrganisationID, Type_ := Type_ } from
      step_string _ _ "type" .Type_ Type_ _ _ (by decide) (by decide)
        (by rintro rfl; rfl) (by simp [AccountData.store, decodeString_ofString]))
  exact h4

/-- A string written by the encoder is plain. -/
theorem plain_ofString (k : Nat) (s : String) : Plain k (ofString s) := by
  simp only [ofString, Plain, escape]
  exact fun rest => scanString_escapeChars s.data rest

/-- The strings of an array written by the encoder are plain. -/
theorem plainElements_ofString (k : Nat) (l : List String) :
    PlainElements k (l.map ofString) := by
  induction l with
  | nil => simp [PlainElements]
  | cons x xs ih => simp only [List.map_cons, PlainElements]; exact ⟨plain_ofString k x, ih⟩

/-- The members of two lists are plain when those of each are. -/
theorem plainMembers_append (k : Nat) (ms1 ms2 : List (List Char × Value)) :
    PlainMembers k (ms1 ++ ms2) ↔ PlainMembers k ms1 ∧ PlainMembers k ms2 := by
  induction ms1 with
  | nil => simp [PlainMembers]
  | cons m ms ih =>
    obtain ⟨key, v⟩ := m
    change PlainMembers k ((key, v) :: (ms ++ ms2)) ↔ _
    simp only [PlainMembers, ih, and_assoc]

/-- A member under `omitempty` is plain when its name needs no escape and its value is plain. -/
theorem plainMembers_omitempty (k : Nat) (name : String) (ov : Option Value)
    (hname : escape name = name.data) (hv : ∀ v, ov = some v → Plain k v) :
    PlainMembers k (omitempty name ov) := by
  cases ov with
  | none => simp [omitempty, PlainMembers]
  | some v =>
    simp only [omitempty, PlainMembers, and_true]
    refine ⟨fun rest => ?_, hv v rfl⟩
    have h := scanString_escapeChars name.data rest
    rw [escape] at hname
    rwa [hname] at h

/-- The member of a `string` field is plain. -/
theorem plainMembers_string (k : Nat) (name : String) (s : String)
    (hname : escape name = name.data) : PlainMembers k (omitempty name (fieldOfString s)) := by
  apply plainMembers_omitempty k name _ hname
  intro v hv
  by_cases hs : s = ""
  · simp [fieldOfString, hs] at hv
  · simp only [fieldOfString, hs, if_false, Option.some.injEq] at hv
    rw [← hv]; exact plain_ofString k s

/-- The member of a `*string` field is plain. -/
theorem plainMembers_stringPtr (k : Nat) (name : String) (p : Option String)
    (hname : escape name = name.data) : PlainMembers k (omitempty name (fieldOfStringPtr p)) := by
  apply plainMembers_omitempty k name _ hname
  intro v hv
  cases p with
  | none => simp [fieldOfStringPtr] at hv
  | some s =>
    simp only [fieldOfStringPtr, Option.map_some', Option.some.injEq] at hv
    rw [← hv]; exact plain_ofString k s

/-- The member of a `*bool` field is plain. -/
theorem plainMembers_boolPtr (k : Nat) (name : String) (p : Option Bool)
    (hname : escape name = name.data) : PlainMembers k (omitempty name (fieldOfBoolPtr p)) := by
  apply plainMembers_omitempty k name _ hname
  intro v hv
  cases p with
  | none => simp [fieldOfBoolPtr] at hv
  | some s =>
    simp only [fieldOfBoolPtr, Option.map_some', Option.some.injEq] at hv
    rw [← hv]; simp [Plain]

/-- The member of a `[]string` field is plain, one level up. -/
theorem plainMembers_stringSlice (k : Nat) (name : String) (p : Option (List String))
    (hname : escape name = name.data) :
    PlainMembers (k + 1) (omitempty name (fieldOfStringSlice p)) := by
  apply plainMembers_omitempty (k + 1) name _ hname
  intro v hv
  match p, hv with
  | none, hv => simp [fieldOfStringSlice] at hv
  | some [], hv => simp [fieldOfStringSlice] at hv
  | some (x :: xs), hv =>
    simp only [fieldOfStringSlice, Option.some.injEq] at hv
    rw [← hv]
    simp only [Plain, Nat.add_sub_cancel]
    exact ⟨Nat.succ_pos k, plainElements_ofString k (x :: xs)⟩

/-- The object written for an `AccountAttributes` is plain, of depth two. -/
theorem plain_attributes (a : AccountAttributes) : Plain 2 a.toJSON := by
  simp only [AccountAttributes.toJSON, Plain, plainMembers_append]
  refine ⟨by decide, ?_⟩
  and_intros
  all_goals first
    | exact plainMembers_string _ _ _ (by decide)
    | exact plainMembers_stringPtr _ _ _ (by decide)
    | exact plainMembers_boolPtr _ _ _ (by decide)
    | exact plainMembers_stringSlice 0 _ _ (by decide)

/-- The object written for a `CreateAccountReq` is plain, of depth three. -/
theorem plain_request (r : CreateAccountReq) : Plain 3 r.toJSON := by
  simp only [CreateAccountReq.toJSON, Plain, plainMembers_append]
  refine ⟨by decide, ?_⟩
  and_intros
  · apply plainMembers_omitempty 2 "attributes" _ (by decide)
    intro v hv
    cases hr : r.Attributes with
    | none => simp [hr] at hv
    | some a =>
      simp only [hr, Option.map_some', Option.some.injEq] at hv
      rw [← hv]; exact plain_attributes a
  all_goals exact plainMembers_string _ _ _ (by decide)

/-- The envelope written around a `CreateAccountReq` is plain, of depth four. -/
theorem plain_envelope (r : CreateAccountReq) : Plain 4 (.obj [("data".data, r.toJSON)]) := by
  simp only [Plain, PlainMembers, and_true]
  refine ⟨by decide, fun rest => ?_, plain_request r⟩
  have h := scanString_escapeChars "data".data rest
  have hd : escapeChars "data".data = "data".data := by decide
  rwa [hd] at h

/-! ## The round trip through the envelope -/

/-- With attributes present `CreateAccount` calls `Post` once, on `accountsPath`, with the
text of the envelope and a newline. -/
theorem createAccount_calls (a : AccountAPIClient) (ctx : Context) (r : CreateAccountReq)
    (h : r.Attributes ≠ none) :
    (CreateAccount a ctx r).calls
      = [.Post ctx accountsPath
          (String.mk (print (.obj [("data".data, r.toJSON)]) ++ ['\n']))] := by
  simp only [CreateAccount, validateCreateAccountReq, h, if_false, Encode]
  split
  · rfl
  · rfl
  · split
    · rfl
    · split_ifs <;> try rfl
      split <;> rfl

/-- The decoder stores the body posted for a request, whose slices are nil or non-empty, in
the `AccountData` put in the envelope, and returns a nil error. -/
theorem decode_posted (lib : Lib) (a : AccountAttributes) (ID OrganisationID Type_ : String)
    (berr : Option Error) (hAlt : a.AlternativeNames ≠ some []) (hName : a.Name ≠ some []) :
    Decode lib
        { data := String.mk (print (.obj [("data".data, CreateAccountReq.toJSON
            { Attributes := some a, ID := ID, OrganisationID := OrganisationID, Type_ := Type_ })])
            ++ ['\n']),
          err := berr }
        { Data := .accountData {} }
      = ({ Data := .accountData
            { Attributes := some a, ID := ID, OrganisationID := OrganisationID, Type_ := Type_ } },
          none) := by
  have hscan := scan_print _ 4 ['\n'] (plain_envelope
    { Attributes := some a, ID := ID, OrganisationID := OrganisationID, Type_ := Type_ })
    (by decide)
  have hdata : unquote "data".data = some "data" := by decide
  have hfield : findField d.fields "data" = some () := by decide
  have hreq := decode_request lib a ID OrganisationID Type_ hAlt hName
  have hstore : storeData lib (CreateAccountReq.toJSON
      { Attributes := some a, ID := ID, OrganisationID := OrganisationID, Type_ := Type_ })
      (.accountData {})
      = some (.accountData
        { Attributes := some a, ID := ID, OrganisationID := OrganisationID, Type_ := Type_ }) := by
    change (decodeStruct AccountData.fields (AccountData.store lib) _ {}).map Any.accountData = _
    rw [hreq]; rfl
  simp only [Decode, hscan]
  simp [decodeStruct, decodeMembers, hdata, hfield, d.store, hstore]

/-- On a 200 response whose body the decoder stores without error in the `AccountData`
of the envelope, `FetchAccountByID` returns that account and a nil error. -/
theorem fetch_decoded (lib : Lib) (a : AccountAPIClient) (ctx : Context) (accountID : String)
    (body : Body) (p : AccountData) (hid : lib.uuidParse accountID = true)
    (hget : a.c.Get ctx (accountsPath ++ "/" ++ accountID)
      = ⟨some { StatusCode := 200, Body := some body }, none⟩)
    (hdec : Decode lib body { Data := .accountData {} } = ({ Data := .accountData p }, none)) :
    (FetchAccountByID lib a ctx accountID).outcome = .returned (some p, none) := by
  simp [FetchAccountByID, validateAccountID, hid, hget, http.StatusOK, hdec]

/-- C9 as stated fails: for the request whose attributes hold the empty, non-nil slice
`Name: []string{}`, `CreateAccount` posts the body `{"data":{"attributes":{}}}` (the member is
dropped by `omitempty`), and on that body `FetchAccountByID` returns an account whose
attributes have a nil `Name`, which differs from the attributes of the request. -/
theorem round_trip_loses_empty_slice :
    (CreateAccount (respond 201 "") ⟨0⟩ { Attributes := some { Name := some [] } }).calls
        = [.Post ⟨0⟩ accountsPath "\x7b\"data\":\x7b\"attributes\":\x7b\x7d\x7d\x7d\n"]
      ∧ ∃ acct, (FetchAccountByID golib
            (respond 200 "\x7b\"data\":\x7b\"attributes\":\x7b\x7d\x7d\x7d\n") ⟨0⟩
            "ad27e265-9605-4b4b-a0e5-3003ea9cc4dc").outcome = .returned (some acct, none)
          ∧ acct.Attributes
            ≠ ({ Attributes := some { Name := some [] } } : CreateAccountReq).Attributes :=
  ⟨by decide, { Attributes := some {} }, by decide, by decide⟩

/-- C9, amended: for every request `r` with attributes present in which the slices
`AlternativeNames` and `Name` are each nil or non-empty (the strings of the model are valid
UTF-8), if the body `CreateAccount` posts for `r` is the body of a 200 response, whatever
the error that ends the reading of that body, `FetchAccountByID` returns with a nil error an
account whose `ID`, `OrganisationID`, `Type` and `Attributes` are those of `r`. -/
theorem round_trip (lib : Lib) (a a2 : AccountAPIClient) (ctx ctx2 : Context)
    (accountID posted : String) (r : CreateAccountReq) (attrs : AccountAttributes)
    (berr : Option Error)
    (hattrs : r.Attributes = some attrs)
    (hAlt : attrs.AlternativeNames ≠ some []) (hName : attrs.Name ≠ some [])
    (hposted : (CreateAccount a ctx r).calls = [.Post ctx accountsPath posted])
    (hid : lib.uuidParse accountID = true)
    (hget : a2.c.Get ctx2 (accountsPath ++ "/" ++ accountID)
      = ⟨some { StatusCode := 200, Body := some { data := posted, err := berr } }, none⟩) :
    ∃ acct, (FetchAccountByID lib a2 ctx2 accountID).outcome = .returned (some acct, none)
      ∧ acct.ID = r.ID ∧ acct.OrganisationID = r.OrganisationID ∧ acct.Type_ = r.Type_
      ∧ acct.Attributes = r.Attributes := by
  obtain ⟨rAttributes, ID, OrganisationID, Type_⟩ := r
  simp only at hattrs
  subst hattrs
  rw [createAccount_calls a ctx _ (by simp)] at hposted
  simp only [List.cons.injEq, Call.Post.injEq, true_and, and_true] at hposted
  subst hposted
  refine ⟨{ Attributes := some attrs, ID := ID, OrganisationID := OrganisationID,
            Type_ := Type_ }, ?_, rfl, rfl, rfl, rfl⟩
  exact fetch_decoded lib a2 ctx2 accountID _ _ hid hget
    (decode_posted lib attrs ID OrganisationID Type_ berr hAlt hName)

/-- C9 amended, on the request of the tests with its identifiers: attributes with country
"GB" and name ["fake account"], and type "accounts". -/
theorem round_trip_witness :
    ∃ acct, (FetchAccountByID golib
        (respond 200 "\x7b\"data\":\x7b\"attributes\":\x7b\"country\":\"GB\",\"name\":[\"fake account\"]\x7d,\"id\":\"ad27e265-9605-4b4b-a0e5-3003ea9cc4dc\",\"organisation_id\":\"eb0bd6f5-c3f5-44b2-b677-acd23cdde73c\",\"type\":\"accounts\"\x7d\x7d\n")
        ⟨1⟩ "ad27e265-9605-4b4b-a0e5-3003ea9cc4dc").outcome = .returned (some acct, none)
      ∧ acct.ID = "ad27e265-9605-4b4b-a0e5-3003ea9cc4dc"
      ∧ acct.OrganisationID = "eb0bd6f5-c3f5-44b2-b677-acd23cdde73c"
      ∧ acct.Type_ = "accounts"
      ∧ acct.Attributes = some { Country := some "GB", Name := some ["fake account"] } :=
  round_trip golib (respond 201 "")
    (respond 200 "\x7b\"data\":\x7b\"attributes\":\x7b\"country\":\"GB\",\"name\":[\"fake account\"]\x7d,\"id\":\"ad27e265-9605-4b4b-a0e5-3003ea9cc4dc\",\"organisation_id\":\"eb0bd6f5-c3f5-44b2-b677-acd23cdde73c\",\"type\":\"accounts\"\x7d\x7d\n")
    ⟨0⟩ ⟨1⟩ "ad27e265-9605-4b4b-a0e5-3003ea9cc4dc"
    "\x7b\"data\":\x7b\"attributes\":\x7b\"country\":\"GB\",\"name\":[\"fake account\"]\x7d,\"id\":\"ad27e265-9605-4b4b-a0e5-3003ea9cc4dc\",\"organisation_id\":\"eb0bd6f5-c3f5-44b2-b677-acd23cdde73c\",\"type\":\"accounts\"\x7d\x7d\n"
    { Attributes := some { Country := some "GB", Name := some ["fake account"] },
      ID := "ad27e265-9605-4b4b-a0e5-3003ea9cc4dc",
      OrganisationID := "eb0bd6f5-c3f5-44b2-b677-acd23cdde73c", Type_ := "accounts" }
    { Country := some "GB", Name := some ["fake account"] } none
    rfl (by decide) (by decide) rfl (by decide) rfl

/-! ## The request of DeleteAccountByID -/

/-- C10: for an identifier that parses and every version, `DeleteAccountByID` makes exactly
one call of the client, a `DeleteWithQueryParams` whose path is
"/v1/organisation/accounts/" followed by the identifier as given and whose query has the
single key "version" with the single value `formatInt version`, which is the decimal
numeral of the version: a minus sign for a negative one, then the digits of its absolute
value in base 10. -/
theorem delete_request (lib : Lib) (a : AccountAPIClient) (ctx : Context) (accountID : String)
    (version : Int) (hid : lib.uuidParse accountID = true) :
    (DeleteAccountByID lib a ctx accountID version).calls
        = [.DeleteWithQueryParams ctx ("/v1/organisation/accounts/" ++ accountID)
            [("version", [formatInt version])]]
      ∧ formatInt version
        = (if version < 0 then "-" else "") ++ String.mk (Nat.toDigits 10 version.natAbs)
      ∧ formatInt version = toString version := by
  refine ⟨?_, ?_, ?_⟩
  · have hpath : accountsPath ++ "/" ++ accountID = "/v1/organisation/accounts/" ++ accountID := by
      rw [String.append_assoc]; rfl
    have hq : Values.Set [] "version" (formatInt version) = [("version", [formatInt version])] :=
      rfl
    simp only [DeleteAccountByID, validateAccountID, hid, if_true, hpath, hq]
    split
    · rfl
    · rfl
    · split
      · rfl
      · split_ifs <;> rfl
  · cases version with
    | ofNat m =>
      have h : ¬ (Int.ofNat m < 0) := by simp
      simp only [h, if_false]
      rfl
    | negSucc m =>
      have h : Int.negSucc m < 0 := Int.negSucc_lt_zero m
      simp only [h, if_true]
      rfl
  · cases version <;> rfl

/-- C10, on the smallest `int64`. -/
theorem delete_request_witness :
    (DeleteAccountByID golib (respond 204 "") ⟨0⟩ "ad27e265-9605-4b4b-a0e5-3003ea9cc4dc"
        (-9223372036854775808)).calls
      = [.DeleteWithQueryParams ⟨0⟩
          "/v1/organisation/accounts/ad27e265-9605-4b4b-a0e5-3003ea9cc4dc"
          [("version", ["-9223372036854775808"])]] :=
  (delete_request golib (respond 204 "") ⟨0⟩ "ad27e265-9605-4b4b-a0e5-3003ea9cc4dc"
    (-9223372036854775808) (by decide)).1

/-! ## The constructor of the transport -/

/-- Applying the options in order, from any configuration: the client is the argument of the
last `WithHTTPClient`, the scheme is "https" once `WithHTTPS` occurs, and a field no option
sets is left as it was. -/
theorem foldl_options (opts : List client.OptionCall) (cfg : client.Config) :
    (opts.map (·.option)).foldl (fun conf opt => opt conf) cfg
      = { c := (match client.lastWithHTTPClient opts with
            | some x => x
            | none => cfg.c),
          scheme := if client.OptionCall.WithHTTPS ∈ opts then "https" else cfg.scheme } := by
  induction opts generalizing cfg with
  | nil => simp [client.lastWithHTTPClient]
  | cons o rest ih =>
    cases o with
    | WithHTTPClient c =>
      simp only [List.map_cons, List.foldl_cons, ih]
      simp only [client.OptionCall.option, client.WithHTTPClient, client.lastWithHTTPClient]
      cases client.lastWithHTTPClient rest <;> simp
    | WithHTTPS =>
      simp only [List.map_cons, List.foldl_cons, ih]
      simp only [client.OptionCall.option, client.WithHTTPS, client.lastWithHTTPClient]
      cases client.lastWithHTTPClient rest <;> simp

/-- C11: `NewDefaultClient(baseURL, opts...)`, for options built by `WithHTTPClient` and
`WithHTTPS` and whatever `url.Parse` does. On an empty base URL it returns a nil client and
the error of message "empty baseURL". On a base URL that `url.Parse` rejects with the error
`e` it returns a nil client and `e` wrapped, an error whose message starts with
"failed to parse baseURL". Otherwise it returns a nil error and a client that holds the base
URL as given, the scheme "https" if `WithHTTPS` is among the options and "http" otherwise, and
the HTTP client set by the last `WithHTTPClient` when that is not nil and `http.DefaultClient`
otherwise. So it returns a nil client with an error exactly when the base URL is empty or
rejected. -/
theorem new_default_client (urlParse : String → Option Error) (baseURL : String)
    (opts : List client.OptionCall) :
    (baseURL = "" →
        client.NewDefaultClient urlParse baseURL (opts.map (·.option))
          = (none, some (.Other "empty baseURL")))
      ∧ (Error.Other "empty baseURL").Error = "empty baseURL"
      ∧ (∀ e, baseURL ≠ "" → urlParse baseURL = some e →
        client.NewDefaultClient urlParse baseURL (opts.map (·.option))
            = (none, some (.Wrap e ("failed to parse baseURL: " ++ baseURL)))
          ∧ ∃ tail, (Error.Wrap e ("failed to parse baseURL: " ++ baseURL)).Error
            = "failed to parse baseURL" ++ tail)
      ∧ (baseURL ≠ "" → urlParse baseURL = none →
        client.NewDefaultClient urlParse baseURL (opts.map (·.option))
          = (some { baseURL := baseURL,
                    conf := some { c := some (client.specHTTPClient opts),
                                   scheme := client.specScheme opts } }, none))
      ∧ (((client.NewDefaultClient urlParse baseURL (opts.map (·.option))).1 = none
            ∧ (client.NewDefaultClient urlParse baseURL (opts.map (·.option))).2 ≠ none)
          ↔ (baseURL = "" ∨ urlParse baseURL ≠ none)) := by
  have hok : baseURL ≠ "" → urlParse baseURL = none →
      client.NewDefaultClient urlParse baseURL (opts.map (·.option))
        = (some { baseURL := baseURL,
                  conf := some { c := some (client.specHTTPClient opts),
                                 scheme := client.specScheme opts } }, none) := by
    intro hb hp
    simp only [client.NewDefaultClient, hb, if_false, hp, foldl_options, client.specHTTPClient,
      client.specScheme]
    rcases hl : client.lastWithHTTPClient opts with _ | (_ | c) <;>
      by_cases hs : client.OptionCall.WithHTTPS ∈ opts <;> simp [hs]
  refine ⟨?_, rfl, ?_, hok, ?_⟩
  · intro hb
    simp [client.NewDefaultClient, hb]
  · intro e hb hp
    refine ⟨by simp [client.NewDefaultClient, hb, hp], ": " ++ baseURL ++ ": " ++ e.Error, ?_⟩
    have h : "failed to parse baseURL: " = "failed to parse baseURL" ++ ": " := by decide
    simp only [Error.Error, h, String.append_assoc]
  · by_cases hb : baseURL = ""
    · simp [client.NewDefaultClient, hb]
    · cases hp : urlParse baseURL with
      | none => simp [hok hb hp, hb]
      | some e => simp [client.NewDefaultClient, hb, hp]

/-- C11, on the cases of the tests: the base URL "test.com" with a custom client and
`WithHTTPS`, and without options; the incorrect URL of the tests; the empty base URL. -/
theorem new_default_client_witness :
    client.NewDefaultClient url.Parse "test.com"
        [client.WithHTTPClient (some ⟨7⟩), client.WithHTTPS]
        = (some { baseURL := "test.com", conf := some { c := some ⟨7⟩, scheme := "https" } },
            none)
      ∧ client.NewDefaultClient url.Parse "test.com" []
        = (some { baseURL := "test.com",
                  conf := some { c := some http.DefaultClient, scheme := "http" } }, none)
      ∧ (∃ err, (client.NewDefaultClient url.Parse
            "www.432234324234-'12#31#23#1#65$%^&*)_+/co.uk########################" []).1 = none
          ∧ (client.NewDefaultClient url.Parse
            "www.432234324234-'12#31#23#1#65$%^&*)_+/co.uk########################" []).2
            = some err
          ∧ ∃ tail, err.Error = "failed to parse baseURL" ++ tail)
      ∧ client.NewDefaultClient url.Parse "" [client.WithHTTPS]
        = (none, some (.Other "empty baseURL")) :=
  ⟨(new_default_client url.Parse "test.com"
      [.WithHTTPClient (some ⟨7⟩), .WithHTTPS]).2.2.2.1 (by decide) (by decide),
    (new_default_client url.Parse "test.com" []).2.2.2.1 (by decide) (by decide),
    have h := (new_default_client url.Parse
      "www.432234324234-'12#31#23#1#65$%^&*)_+/co.uk########################" []).2.2.1
      (.Other
        "parse www.432234324234-'12#31#23#1#65$%^&*)_+/co.uk########################: invalid URL escape")
      (by decide) (by decide)
    ⟨_, congrArg Prod.fst h.1, congrArg Prod.snd h.1, h.2⟩,
    (new_default_client url.Parse "" [.WithHTTPS]).1 rfl⟩

/-! ## FetchAccountByID is not total on 200 responses -/

/-- C12: on a 200 response whose body is the text `{"data": null}` the decoder returns a nil
error and leaves the field `Data` nil, not holding the `*AccountData` it was given, and
`FetchAccountByID`, after its one call of `Get`, panics at the type assertion
`b.Data.(*AccountData)` instead of returning. -/
theorem fetch_not_total_on_null_data :
    Decode golib { data := "\x7b\"data\": null\x7d" } { Data := .accountData {} }
        = ({ Data := .nil }, none)
      ∧ FetchAccountByID golib (respond 200 "\x7b\"data\": null\x7d") ⟨0⟩
          "ad27e265-9605-4b4b-a0e5-3003ea9cc4dc"
        = ⟨[.Get ⟨0⟩ "/v1/organisation/accounts/ad27e265-9605-4b4b-a0e5-3003ea9cc4dc"],
            .panicked "interface conversion: interface {} is nil, not *form.AccountData"⟩ :=
  ⟨rfl, by decide⟩

/-- On the bodies `{}` and `{"data": 5}`, with status 200, `FetchAccountByID` returns: the
zero account with a nil error on the first, a nil account with the wrapped error of the
decoder on the second. -/
theorem fetch_on_missing_and_number_data :
    (FetchAccountByID golib (respond 200 "\x7b\x7d") ⟨0⟩
        "ad27e265-9605-4b4b-a0e5-3003ea9cc4dc").outcome = .returned (some {}, none)
      ∧ (FetchAccountByID golib (respond 200 "\x7b\"data\": 5\x7d") ⟨0⟩
        "ad27e265-9605-4b4b-a0e5-3003ea9cc4dc").outcome
        = .returned (none, some (.Wrap (.JSON .Unmarshal) "failed to decode body")) := by
  decide

end form
